import Mathlib

/-
  Verification of the mini-os graphics/display stack.

  Shallow embedding of the C sources (types.h, gpu.h, graphics.h,
  display.h, kernel.c PCI section, gpu_hw header) into Lean.

  Modelling conventions:
  * C unsigned integers are modelled as `Nat`; where C truncates to a
    fixed width (uint8/uint16/uint32 stores and casts) the model applies
    the matching `% 2^w` (or a `&&& mask` exactly as the C source writes it).
  * C `int32_t` values are modelled as `Int`; where C wraps on overflow
    (int32 <- uint32 conversions) the model applies `toInt32`.
  * Byte-addressed memory (the back buffer, the front buffer) is a total
    function `Nat → Nat` from byte address to byte value; a 32-bit or
    16-bit store is the little-endian sequence of byte stores the x86
    hardware performs, and a load is the little-endian reassembly.
  * Fallible C functions returning -1/0 return the same `Int` codes.
-/

namespace MiniOS

/- ---------- types.h: color macros ---------- -/

/-- types.h `RGB(r,g,b)`: `((r) << 16) | ((g) << 8) | (b)` (left-assoc `|`). -/
def RGB (r g b : Nat) : Nat := ((r <<< 16) ||| (g <<< 8)) ||| b

/-- types.h `RGBA(r,g,b,a)`: `(a << 24) | (r << 16) | (g << 8) | b`. -/
def RGBA (r g b a : Nat) : Nat := (((a <<< 24) ||| (r <<< 16)) ||| (g <<< 8)) ||| b

/-- types.h `GET_R(c)`: `((c) >> 16) & 0xFF`. -/
def GET_R (c : Nat) : Nat := (c >>> 16) &&& 0xFF

/-- types.h `GET_G(c)`: `((c) >> 8) & 0xFF`. -/
def GET_G (c : Nat) : Nat := (c >>> 8) &&& 0xFF

/-- types.h `GET_B(c)`: `(c) & 0xFF`. -/
def GET_B (c : Nat) : Nat := c &&& 0xFF

/-- types.h `GET_A(c)`: `((c) >> 24) & 0xFF`. -/
def GET_A (c : Nat) : Nat := (c >>> 24) &&& 0xFF

/-- Wrap of an unbounded integer into the int32 value range,
    the conversion a C `int32_t` assignment performs (two's complement). -/
def toInt32 (n : Int) : Int := (n + 2 ^ 31) % 2 ^ 32 - 2 ^ 31

/- ---------- byte memory ---------- -/

/-- A single byte store: memory `m` updated at address `a` with value `v`. -/
def wr (m : Nat → Nat) (a v : Nat) : Nat → Nat := fun i => if i = a then v else m i

/-- A 32-bit little-endian store at byte address `a` (the C `*(uint32_t*)p = v`). -/
def st32 (m : Nat → Nat) (a v : Nat) : Nat → Nat :=
  wr (wr (wr (wr m a (v &&& 0xFF)) (a + 1) ((v >>> 8) &&& 0xFF)) (a + 2) ((v >>> 16) &&& 0xFF)) (a + 3) ((v >>> 24) &&& 0xFF)

/-- A 32-bit little-endian load at byte address `a` (the C `*(uint32_t*)p`). -/
def ld32 (m : Nat → Nat) (a : Nat) : Nat :=
  m a + 2 ^ 8 * m (a + 1) + 2 ^ 16 * m (a + 2) + 2 ^ 24 * m (a + 3)

/-- A 16-bit little-endian store at byte address `a` (the C `*(uint16_t*)p = v`). -/
def st16 (m : Nat → Nat) (a v : Nat) : Nat → Nat :=
  wr (wr m a (v &&& 0xFF)) (a + 1) ((v >>> 8) &&& 0xFF)

/-- A 16-bit little-endian load at byte address `a` (the C `*(uint16_t*)p`). -/
def ld16 (m : Nat → Nat) (a : Nat) : Nat :=
  m a + 2 ^ 8 * m (a + 1)

/- ---------- gpu.h: Framebuffer (the back buffer descriptor) ---------- -/

/-- gpu.h `Framebuffer`: pixel buffer bytes, logical width/height,
    pitch in bytes per row, bits per pixel. -/
structure Framebuffer where
  data : Nat → Nat
  width : Nat
  height : Nat
  pitch : Nat
  bpp : Nat

/-- gpu.h `gpu_put_pixel`: bounds-checked, format-dispatched pixel store
    into the back buffer.  32bpp stores the 32-bit word (4 LE bytes);
    24bpp stores B,G,R bytes; 16bpp packs 5-6-5 and stores the halfword. -/
def gpu_put_pixel (fb : Framebuffer) (x y : Int) (color : Nat) : Framebuffer :=
  if x < 0 ∨ (fb.width : Int) ≤ x ∨ y < 0 ∨ (fb.height : Int) ≤ y then fb
  else
    let row := y.toNat * fb.pitch
    if fb.bpp = 32 then
      { fb with data := st32 fb.data (row + 4 * x.toNat) color }
    else if fb.bpp = 24 then
      let p := row + 3 * x.toNat
      { fb with data := wr (wr (wr fb.data p (GET_B color)) (p + 1) (GET_G color)) (p + 2) (GET_R color) }
    else if fb.bpp = 16 then
      let v := (((GET_R color >>> 3) <<< 11) ||| ((GET_G color >>> 2) <<< 5)) ||| (GET_B color >>> 3)
      { fb with data := st16 fb.data (row + 2 * x.toNat) v }
    else fb

/-- gpu.h `gpu_get_pixel`: bounds-checked, format-dispatched pixel load
    from the back buffer; out of bounds returns 0. -/
def gpu_get_pixel (fb : Framebuffer) (x y : Int) : Nat :=
  if x < 0 ∨ (fb.width : Int) ≤ x ∨ y < 0 ∨ (fb.height : Int) ≤ y then 0
  else
    let row := y.toNat * fb.pitch
    if fb.bpp = 32 then
      ld32 fb.data (row + 4 * x.toNat)
    else if fb.bpp = 24 then
      let p := row + 3 * x.toNat
      RGB (fb.data (p + 2)) (fb.data (p + 1)) (fb.data p)
    else if fb.bpp = 16 then
      let v := ld16 fb.data (row + 2 * x.toNat)
      RGB (((v >>> 11) &&& 0x1F) <<< 3) (((v >>> 5) &&& 0x3F) <<< 2) ((v &&& 0x1F) <<< 3)
    else 0

/-- gpu.h `gpu_blend`: straight-alpha blend of two colors,
    `RGB((R(fg)*a + R(bg)*(255-a))/255, ...)`. -/
def gpu_blend (fg bg : Nat) (alpha : Nat) : Nat :=
  let inv := 255 - alpha
  RGB ((GET_R fg * alpha + GET_R bg * inv) / 255)
      ((GET_G fg * alpha + GET_G bg * inv) / 255)
      ((GET_B fg * alpha + GET_B bg * inv) / 255)

/-- graphics.h `color_blend`: the same formula, with each channel first
    stored into a `uint8_t` (modelled by `% 256`) before reassembly. -/
def color_blend (fg bg : Nat) (alpha : Nat) : Nat :=
  let inv_alpha := 255 - alpha
  let r := (GET_R fg * alpha + GET_R bg * inv_alpha) / 255 % 256
  let g := (GET_G fg * alpha + GET_G bg * inv_alpha) / 255 % 256
  let b := (GET_B fg * alpha + GET_B bg * inv_alpha) / 255 % 256
  RGB r g b

/-- gpu.h `gpu_put_pixel_alpha`: alpha-aware write; alpha 0 does nothing,
    alpha 255 writes directly, anything else reads the destination and
    writes the blend. -/
def gpu_put_pixel_alpha (fb : Framebuffer) (x y : Int) (color : Nat) : Framebuffer :=
  let alpha := GET_A color
  if alpha = 0 then fb
  else if alpha = 255 then gpu_put_pixel fb x y color
  else gpu_put_pixel fb x y (gpu_blend color (gpu_get_pixel fb x y) alpha)

/- ---------- concrete surfaces used to instantiate theorems ---------- -/

/-- A small zero-filled 32bpp back buffer (4x4, pitch 16). -/
def fbA : Framebuffer := ⟨fun _ => 0, 4, 4, 16, 32⟩

/-- A small zero-filled 16bpp back buffer (4x4, pitch 8). -/
def fbB : Framebuffer := ⟨fun _ => 0, 4, 4, 8, 16⟩

/- ---------- gpu.h: Rect, Viewport and clipping ---------- -/

/-- gpu.h `Rect`: signed position, unsigned 32-bit size. -/
structure Rect where
  x : Int
  y : Int
  w : Nat
  h : Nat
deriving DecidableEq

/-- gpu.h `Viewport`: the active clip rectangle. -/
structure Viewport where
  x : Int
  y : Int
  w : Nat
  h : Nat
deriving DecidableEq

/-- gpu.h `gpu_clip_rect`: clamps the rectangle to the viewport; returns
    flag 1 and the clipped rectangle, or flag 0 leaving it untouched.
    The C sums `r->x + r->width` mix int32 and uint32 and wrap (`toInt32`). -/
def gpu_clip_rect (vp : Viewport) (r : Rect) : Nat × Rect :=
  let x1 := r.x
  let y1 := r.y
  let x2 := toInt32 (r.x + (r.w : Int))
  let y2 := toInt32 (r.y + (r.h : Int))
  let vx1 := vp.x
  let vy1 := vp.y
  let vx2 := toInt32 (vp.x + (vp.w : Int))
  let vy2 := toInt32 (vp.y + (vp.h : Int))
  let x1 := if x1 < vx1 then vx1 else x1
  let y1 := if y1 < vy1 then vy1 else y1
  let x2 := if x2 > vx2 then vx2 else x2
  let y2 := if y2 > vy2 then vy2 else y2
  if x1 ≥ x2 ∨ y1 ≥ y2 then (0, r)
  else (1, ⟨x1, y1, (x2 - x1).toNat, (y2 - y1).toNat⟩)

/-- Specification-level membership: the point (px,py) lies in rectangle `r`. -/
def Rect.contains (r : Rect) (px py : Int) : Prop :=
  r.x ≤ px ∧ px < r.x + (r.w : Int) ∧ r.y ≤ py ∧ py < r.y + (r.h : Int)

/-- Specification-level membership: the point (px,py) lies in viewport `v`. -/
def Viewport.contains (v : Viewport) (px py : Int) : Prop :=
  v.x ≤ px ∧ px < v.x + (v.w : Int) ∧ v.y ≤ py ∧ py < v.y + (v.h : Int)

instance (r : Rect) (px py : Int) : Decidable (Rect.contains r px py) := by
  unfold Rect.contains; infer_instance

instance (v : Viewport) (px py : Int) : Decidable (Viewport.contains v px py) := by
  unfold Viewport.contains; infer_instance

/-- A concrete full-screen-style viewport. -/
def vpC : Viewport := ⟨0, 0, 100, 100⟩

/-- A rectangle whose width makes `x + width` overflow int32. -/
def rectC : Rect := ⟨0, 0, 2147483648, 10⟩

/-- A small well-behaved rectangle. -/
def rectD : Rect := ⟨10, 10, 20, 20⟩

/- ---------- display.h: layers and the compositor ---------- -/

/-- display.h `Layer`: position, size, visibility flag (uint8), layer-wide
    alpha multiplier, and a private ARGB pixel buffer (one Nat per pixel,
    indexed row-major, as the C `uint32_t*` buffer). -/
structure Layer where
  x : Int
  y : Int
  width : Nat
  height : Nat
  visible : Nat
  alpha : Nat
  buffer : Nat → Nat

/-- display.h `Display` (the part the compositor reads): geometry and the
    five layers in fixed order Background, Main, Ui, Overlay, Cursor. -/
structure Display where
  width : Nat
  height : Nat
  layers : Fin 5 → Layer

/-- The layer source pixel the compositor reads at destination (x,y):
    `layer->buffer[ly * layer->width + lx]` with `lx = x - layer->x`,
    `ly = y - layer->y`.  The index is computed in uint32 arithmetic:
    the int32 values `ly` and `lx` are converted mod 2^32 and the
    multiply/add wrap mod 2^32. -/
def layer_src (l : Layer) (x y : Int) : Nat :=
  l.buffer ((((y - l.y) % 2 ^ 32).toNat * l.width + ((x - l.x) % 2 ^ 32).toNat) % 2 ^ 32)

/-- One iteration of `display_composite`'s inner layer loop: fold the
    layer's contribution at destination (x,y) onto the accumulator.
    The C compares `lx < (int32_t)layer->width` (and likewise for the
    height): the uint32 size is cast to int32, wrapping — `toInt32`. -/
def composite_step (x y : Int) (pixel : Nat) (layer : Layer) : Nat :=
  if layer.visible = 0 then pixel
  else
    let lx := x - layer.x
    let ly := y - layer.y
    if 0 ≤ lx ∧ lx < toInt32 (layer.width : Int) ∧ 0 ≤ ly ∧ ly < toInt32 (layer.height : Int) then
      let src := layer_src layer x y
      let src_alpha := GET_A src
      let src_alpha := if layer.alpha < 255 then src_alpha * layer.alpha / 255 else src_alpha
      if src_alpha = 255 then src
      else if src_alpha > 0 then gpu_blend src pixel src_alpha
      else pixel
    else pixel

/-- display.h `display_composite`, inner double loop body: the value the
    compositor computes for destination pixel (x,y) — the accumulator
    starts at 0 and folds the five layers in order. -/
def compositePixel (d : Display) (x y : Int) : Nat :=
  composite_step x y (composite_step x y (composite_step x y (composite_step x y (composite_step x y 0 (d.layers 0)) (d.layers 1)) (d.layers 2)) (d.layers 3)) (d.layers 4)

/-- Row loop of `display_composite`: writes columns 0..n-1 of row `y`. -/
def composite_row (d : Display) (y : Int) (fb : Framebuffer) : Nat → Framebuffer
  | 0 => fb
  | n + 1 => gpu_put_pixel (composite_row d y fb n) (n : Int) y (compositePixel d (n : Int) y)

/-- Column-of-rows loop of `display_composite`: writes rows 0..n-1. -/
def composite_rows (d : Display) (fb : Framebuffer) : Nat → Framebuffer
  | 0 => fb
  | n + 1 => composite_row d (n : Int) (composite_rows d fb n) d.width

/-- display.h `display_composite`: for every destination pixel of the
    display, compute the layered composite and `gpu_put_pixel` it into
    the back buffer. -/
def display_composite (d : Display) (fb : Framebuffer) : Framebuffer :=
  composite_rows d fb d.height

/-- A display whose only visible layer is the Background, holding a
    half-transparent white pixel (alpha 128). -/
def exD : Display :=
  ⟨1, 1, fun i => if i = 0 then ⟨0, 0, 1, 1, 1, 255, fun _ => 0x80FFFFFF⟩
                 else ⟨0, 0, 1, 1, 0, 255, fun _ => 0⟩⟩

/- ---------- gpu.h: device info, gpu_init and gpu_present ---------- -/

/-- gpu.h `GPUType`. -/
inductive GPUType where
  | UNKNOWN
  | VBE
  | BOCHS
  | QEMU_STD
deriving DecidableEq

/-- gpu.h `PixelFormat`. -/
inductive PixelFormat where
  | UNKNOWN
  | RGB565
  | RGB888
  | XRGB8888
  | ARGB8888
deriving DecidableEq

/-- types.h `struct BootInfo`: the boot-time handoff record. -/
structure BootInfo where
  magic : Nat
  boot_drive : Nat
  kernel_phys : Nat
  kernel_sectors : Nat
  fb_addr : Nat
  fb_pitch : Nat
  fb_width : Nat
  fb_height : Nat
  fb_bpp : Nat
  fb_type : Nat

/-- gpu.h `GPUDevice`: resolved device info built by `gpu_init`. -/
structure GPUDevice where
  type : GPUType
  format : PixelFormat
  framebuffer_addr : Nat
  framebuffer_size : Nat
  width : Nat
  height : Nat
  pitch : Nat
  bpp : Nat
  bytes_per_pixel : Nat

/-- gpu.h `gpu_detect_format`. -/
def gpu_detect_format (bpp : Nat) : PixelFormat :=
  if bpp = 16 then .RGB565
  else if bpp = 24 then .RGB888
  else if bpp = 32 then .XRGB8888
  else .UNKNOWN

/-- The back-buffer clear loop of `gpu_init`: zeroes bytes 0..n-1. -/
def clearBytes (m : Nat → Nat) : Nat → (Nat → Nat)
  | 0 => m
  | n + 1 => wr (clearBytes m n) n 0

/-- gpu.h `gpu_init`: fails (-1, here `none`) on a zero framebuffer
    address/width/height; otherwise fills the `GPUDevice` from the handoff
    record and sizes the back buffer with pitch `fb_width *
    bytes_per_pixel` (a uint16 field, hence `% 65536`), clearing it.
    `mem` is the back-buffer memory before the clear. -/
def gpu_init (info : BootInfo) (mem : Nat → Nat) : Option (GPUDevice × Framebuffer) :=
  if info.fb_addr = 0 ∨ info.fb_width = 0 ∨ info.fb_height = 0 then none
  else
    let bytes_per_pixel := info.fb_bpp / 8
    let dev : GPUDevice := ⟨.VBE, gpu_detect_format info.fb_bpp, info.fb_addr, info.fb_pitch * info.fb_height, info.fb_width, info.fb_height, info.fb_pitch, info.fb_bpp, bytes_per_pixel⟩
    let bpitch := info.fb_width * bytes_per_pixel % 65536
    let bb : Framebuffer := ⟨clearBytes mem (bpitch * info.fb_height), info.fb_width, info.fb_height, bpitch, info.fb_bpp⟩
    some (dev, bb)

/-- Inner byte loop of `gpu_present`: copy `n` bytes from source offset
    `sb` to destination offset `db`, ascending. -/
def copy_row (src : Nat → Nat) (sb db : Nat) (dst : Nat → Nat) : Nat → (Nat → Nat)
  | 0 => dst
  | n + 1 => wr (copy_row src sb db dst n) (db + n) (src (sb + n))

/-- Row loop of `gpu_present`: copy rows 0..n-1, each `rowBytes` long,
    source rows at `spitch` apart, destination rows at `dpitch` apart. -/
def copy_rows (src : Nat → Nat) (spitch dpitch rowBytes : Nat) (dst : Nat → Nat) : Nat → (Nat → Nat)
  | 0 => dst
  | n + 1 => copy_row src (n * spitch) (n * dpitch) (copy_rows src spitch dpitch rowBytes dst n) rowBytes

/-- gpu.h `gpu_present`: copy the back buffer to the front buffer row by
    row; `row_bytes = backbuffer.width * device.bytes_per_pixel`, source
    rows addressed by the back buffer's pitch, destination rows by the
    device's pitch. -/
def gpu_present (bb : Framebuffer) (dev : GPUDevice) (front : Nat → Nat) : Nat → Nat :=
  copy_rows bb.data bb.pitch dev.pitch (bb.width * dev.bytes_per_pixel) front bb.height

/-- A concrete 800x600x32 handoff record with a device pitch of 4096. -/
def infoW : BootInfo := ⟨0x2BADB002, 0x80, 0x100000, 64, 0xE0000000, 4096, 800, 600, 32, 1⟩

/- ---------- kernel.c: PCI configuration space access ---------- -/

/-- The configuration-space contents: for (bus, slot, func, 4-byte-aligned
    offset) the 32-bit value a configuration read returns.  `pci_read32`
    issues the address/data port transaction; here it is the abstract bus. -/
def PCIConfig : Type := Nat → Nat → Nat → Nat → Nat

/-- kernel.c `pci_read32`: a 32-bit configuration read at `offset & 0xFC`. -/
def pci_read32 (cfg : PCIConfig) (bus slot func offset : Nat) : Nat :=
  cfg bus slot func (offset &&& 0xFC) % 2 ^ 32

/-- kernel.c `pci_read16`: `(uint16_t)(read32 >> ((offset & 2) * 8))`. -/
def pci_read16 (cfg : PCIConfig) (bus slot func offset : Nat) : Nat :=
  (pci_read32 cfg bus slot func offset >>> ((offset &&& 2) * 8)) &&& 0xFFFF

/-- kernel.c `pci_read8`: `(uint8_t)(read32 >> ((offset & 3) * 8))`. -/
def pci_read8 (cfg : PCIConfig) (bus slot func offset : Nat) : Nat :=
  (pci_read32 cfg bus slot func offset >>> ((offset &&& 3) * 8)) &&& 0xFF

/-- kernel.c `PCIDevice`: one registered device record.  The three BAR
    arrays are maps from BAR index; entries the fill loop skips keep the
    previous contents of the (static) table slot, as in the C. -/
structure PCIRec where
  bus : Nat
  slot : Nat
  func : Nat
  vendor_id : Nat
  device_id : Nat
  class_code : Nat
  subclass : Nat
  prog_if : Nat
  revision : Nat
  header_type : Nat
  interrupt_line : Nat
  interrupt_pin : Nat
  bar : Nat → Nat
  bar_size : Nat → Nat
  bar_type : Nat → Nat

/-- Generic pointwise update of an index-map (array store). -/
def upd {α : Type} (f : Nat → α) (i : Nat) (v : α) : Nat → α :=
  fun j => if j = i then v else f j

/-- kernel.c `pci_get_bar_size`: a stub that returns 0 (documented
    simplification in the source). -/
def pci_get_bar_size (bus slot func bar_num : Nat) : Nat := 0

/-- The BAR read/classify loop of `pci_check_device` (`for i in 0..5` with
    an extra `i++` after a 64-bit memory BAR, skipping its upper half).
    Offsets: `PCI_BAR0 = 0x10`; classification: 0 unused, 1 I/O (bit 0),
    3 Memory64 (`(bar & 6) == 4`), 2 Memory32. -/
def read_bars (cfg : PCIConfig) (bus slot func : Nat) :
    Nat → Nat → ((Nat → Nat) × (Nat → Nat) × (Nat → Nat)) → ((Nat → Nat) × (Nat → Nat) × (Nat → Nat))
  | 0, _, maps => maps
  | fuel + 1, i, maps =>
    if i < 6 then
      let v := pci_read32 cfg bus slot func (0x10 + i * 4)
      let b := upd maps.1 i v
      let sz := upd maps.2.1 i (pci_get_bar_size bus slot func i)
      if v = 0 then
        read_bars cfg bus slot func fuel (i + 1) (b, sz, upd maps.2.2 i 0)
      else if v &&& 0x01 ≠ 0 then
        read_bars cfg bus slot func fuel (i + 1) (b, sz, upd maps.2.2 i 1)
      else if v &&& 0x06 = 0x04 then
        read_bars cfg bus slot func fuel (i + 2) (b, sz, upd maps.2.2 i 3)
      else
        read_bars cfg bus slot func fuel (i + 1) (b, sz, upd maps.2.2 i 2)
    else maps

/-- The record-filling part of `pci_check_device`: reads identity bytes
    (offsets as in the PCI_* macros) and, for header type 0, the BARs.
    `prev` is the previous content of the table slot being overwritten. -/
def fill_device (cfg : PCIConfig) (bus slot func : Nat) (prev : PCIRec) : PCIRec :=
  let header := pci_read8 cfg bus slot func 0x0E
  let base : PCIRec := { prev with
    bus := bus
    slot := slot
    func := func
    vendor_id := pci_read16 cfg bus slot func 0x00
    device_id := pci_read16 cfg bus slot func 0x02
    class_code := pci_read8 cfg bus slot func 0x0B
    subclass := pci_read8 cfg bus slot func 0x0A
    prog_if := pci_read8 cfg bus slot func 0x09
    revision := pci_read8 cfg bus slot func 0x08
    header_type := header
    interrupt_line := pci_read8 cfg bus slot func 0x3C
    interrupt_pin := pci_read8 cfg bus slot func 0x3D }
  if header &&& 0x7F = 0 then
    let maps := read_bars cfg bus slot func 6 0 (prev.bar, prev.bar_size, prev.bar_type)
    { base with bar := maps.1, bar_size := maps.2.1, bar_type := maps.2.2 }
  else base

/-- kernel.c device table state: `pci_devices` (a 32-entry static array,
    modelled as an index map) and `pci_device_count`. -/
structure PCIState where
  devices : Nat → PCIRec
  count : Nat

/-- kernel.c `pci_check_device`: skip absent (vendor 0xFFFF) devices and
    respect the `PCI_MAX_DEVICES = 32` cap; otherwise fill the next table
    slot and bump the count. -/
def pci_check_device (cfg : PCIConfig) (bus slot func : Nat) (s : PCIState) : PCIState :=
  let vendor := pci_read16 cfg bus slot func 0x00
  if vendor = 0xFFFF then s
  else if 32 ≤ s.count then s
  else ⟨upd s.devices s.count (fill_device cfg bus slot func (s.devices s.count)), s.count + 1⟩

/-- The multi-function probe loop of `pci_enumerate` (`for func in 1..7`). -/
def pci_scan_funcs (cfg : PCIConfig) (slot : Nat) : Nat → Nat → PCIState → PCIState
  | 0, _, s => s
  | fuel + 1, func, s =>
    if func < 8 then
      let s' := if pci_read16 cfg 0 slot func 0x00 ≠ 0xFFFF then pci_check_device cfg 0 slot func s else s
      pci_scan_funcs cfg slot fuel (func + 1) s'
    else s

/-- One slot iteration of `pci_enumerate`: skip empty (0xFFFF) or
    all-zero vendor slots; register function 0; probe functions 1-7 when
    the header's multi-function bit (0x80) is set. -/
def pci_process_slot (cfg : PCIConfig) (slot : Nat) (s : PCIState) : PCIState :=
  let vendor := pci_read16 cfg 0 slot 0 0x00
  if vendor = 0xFFFF ∨ vendor = 0 then s
  else
    let s1 := pci_check_device cfg 0 slot 0 s
    let header := pci_read8 cfg 0 slot 0 0x0E
    if header &&& 0x80 ≠ 0 then pci_scan_funcs cfg slot 7 1 s1 else s1

/-- The slot loop of `pci_enumerate` (`for slot in 0..31`, breaking once
    the device cap is reached). -/
def pci_enum_slots (cfg : PCIConfig) : Nat → Nat → PCIState → PCIState
  | 0, _, s => s
  | fuel + 1, slot, s =>
    if slot < 32 then
      let s' := pci_process_slot cfg slot s
      if 32 ≤ s'.count then s' else pci_enum_slots cfg fuel (slot + 1) s'
    else s

/-- kernel.c `pci_enumerate`: reset `pci_device_count` to 0 and scan bus 0. -/
def pci_enumerate (cfg : PCIConfig) (s : PCIState) : PCIState :=
  pci_enum_slots cfg 32 0 ⟨s.devices, 0⟩

/- ---------- kernel.c: PCI lookups, BAR helpers, device enable ---------- -/

/-- Search loop of `pci_find_class`: first match in registration order. -/
def pci_find_class_aux (s : PCIState) (class_code subclass : Nat) : Nat → Nat → Option PCIRec
  | 0, _ => none
  | fuel + 1, i =>
    if i < s.count then
      if (s.devices i).class_code = class_code ∧ (s.devices i).subclass = subclass then
        some (s.devices i)
      else pci_find_class_aux s class_code subclass fuel (i + 1)
    else none

/-- kernel.c `pci_find_class`. -/
def pci_find_class (s : PCIState) (class_code subclass : Nat) : Option PCIRec :=
  pci_find_class_aux s class_code subclass s.count 0

/-- kernel.c `pci_find_display`: VGA controller (class 3, subclass 0)
    first, then 3D controller (class 3, subclass 2). -/
def pci_find_display (s : PCIState) : Option PCIRec :=
  match pci_find_class s 0x03 0x00 with
  | some dev => some dev
  | none => pci_find_class s 0x03 0x02

/-- kernel.c `pci_bar_get_addr`. -/
def pci_bar_get_addr (bar : Nat) : Nat :=
  if bar &&& 0x01 ≠ 0 then bar &&& 0xFFFFFFFC else bar &&& 0xFFFFFFF0

/- ---------- gpu_hw header: hardware adapter ---------- -/

/-- `GPUHardwareType` of the hardware GPU driver header. -/
inductive GPUHardwareType where
  | NONE
  | VBE
  | BOCHS
  | VMWARE_SVGA
  | VIRTIO_GPU
  | INTEL
  | AMD
  | NVIDIA
deriving DecidableEq

/-- `GPUHardware`: the adapter singleton's fields. -/
structure GPUHardware where
  type : GPUHardwareType
  pci_dev : Option PCIRec
  fb_addr : Nat
  fb_size : Nat
  width : Nat
  height : Nat
  bpp : Nat
  pitch : Nat
  mmio_addr : Nat
  mmio_size : Nat
  io_base : Nat
  has_accel : Nat
  has_cursor : Nat
  vram_size : Nat

/-- A hardware register write issued through an I/O port pair. -/
inductive HWWrite where
  | bochs (index value : Nat)
  | pciConfig (bus slot func offset value : Nat)

/-- `bochs_write`: the register and data are 16-bit ports, so the written
    value is truncated to 16 bits. -/
def bochs_write (index value : Nat) : HWWrite := .bochs index (value % 65536)

/-- `bochs_read`: an index/data port read returning a 16-bit value;
    `bregs` is the emulated adapter's register file. -/
def bochs_read (bregs : Nat → Nat) (index : Nat) : Nat := bregs index &&& 0xFFFF

/-- `bochs_detect`: the identity register (index 0) must be in the
    VBE_DISPI_ID0..ID5 range 0xB0C0..0xB0C5. -/
def bochs_detect (bregs : Nat → Nat) : Bool :=
  decide (0xB0C0 ≤ bochs_read bregs 0 ∧ bochs_read bregs 0 ≤ 0xB0C5)

/-- `bochs_get_vram_size`: VIDEO_MEM register (index 0xA) in 64KB units,
    with a 16MB fallback when it reads 0. -/
def bochs_get_vram_size (bregs : Nat → Nat) : Nat :=
  let mem := bochs_read bregs 0x0A
  if mem = 0 then 16 * 1024 * 1024 else mem * 64 * 1024

/-- `bochs_set_mode`: the exact register write sequence (disable; x/y
    resolution; bpp; virtual resolution with doubled height; zero
    offsets; enable with the linear-framebuffer flag 0x41). -/
def bochs_set_mode_writes (width height bpp : Nat) : List HWWrite :=
  [bochs_write 4 0, bochs_write 1 width, bochs_write 2 height, bochs_write 3 bpp,
   bochs_write 6 width, bochs_write 7 (height * 2), bochs_write 8 0, bochs_write 9 0,
   bochs_write 4 0x41]

/-- `gpu_hw_set_mode`: only the Bochs adapter supports mode setting; it
    issues the register writes and updates the stored geometry (pitch is
    `width * (bpp / 8)`); every other adapter type returns -1 untouched,
    issuing no write. -/
def gpu_hw_set_mode (hw : GPUHardware) (width height bpp : Nat) : Int × GPUHardware × List HWWrite :=
  if hw.type = .BOCHS then
    (0, { hw with width := width, height := height, bpp := bpp, pitch := width * (bpp / 8) }, bochs_set_mode_writes width height bpp)
  else (-1, hw, [])

/-- kernel.c `pci_enable_device`: read-modify-write of the command
    register (offset 4) setting I/O-space, memory-space and bus-master
    bits (0x07). -/
def pci_enable_device_write (cfg : PCIConfig) (dev : PCIRec) : HWWrite :=
  .pciConfig dev.bus dev.slot dev.func 0x04 (pci_read16 cfg dev.bus dev.slot dev.func 0x04 ||| 0x07)

/-- `gpu_hw_init`: reset the adapter state, enumerate the bus, and
    resolve: a display-class device (enabled, BAR0/BAR2 classified,
    vendor-keyed detection, QEMU/Bochs vendor 0x1234 triggering the I/O
    identity probe) returns 0; otherwise a bare I/O identity probe
    returns 0 as Bochs; otherwise fall back to VBE and return -1.
    Returns (code, adapter state, device table, register writes issued). -/
def gpu_hw_init (cfg : PCIConfig) (bregs : Nat → Nat) (s : PCIState) (hw0 : GPUHardware) :
    Int × GPUHardware × PCIState × List HWWrite :=
  let hw : GPUHardware := { hw0 with type := .NONE, pci_dev := none, fb_addr := 0, mmio_addr := 0, has_accel := 0, has_cursor := 0 }
  let s1 := pci_enumerate cfg s
  match pci_find_display s1 with
  | some gpu =>
      let ws := [pci_enable_device_write cfg gpu]
      let hw := { hw with pci_dev := some gpu }
      let hw := if gpu.bar_type 0 = 2 ∨ gpu.bar_type 0 = 3 then { hw with fb_addr := pci_bar_get_addr (gpu.bar 0), fb_size := gpu.bar_size 0 } else hw
      let hw := if gpu.bar_type 2 = 2 then { hw with mmio_addr := pci_bar_get_addr (gpu.bar 2), mmio_size := gpu.bar_size 2 } else hw
      let hw :=
        if gpu.vendor_id = 0x1234 then
          (if bochs_detect bregs then { hw with type := .BOCHS, vram_size := bochs_get_vram_size bregs, has_accel := 0, has_cursor := 1 } else hw)
        else if gpu.vendor_id = 0x15AD then { hw with type := .VMWARE_SVGA }
        else if gpu.vendor_id = 0x8086 then { hw with type := .INTEL }
        else if gpu.vendor_id = 0x1002 then { hw with type := .AMD }
        else if gpu.vendor_id = 0x10DE then { hw with type := .NVIDIA }
        else hw
      (0, hw, s1, ws)
  | none =>
      if bochs_detect bregs then
        (0, { hw with type := .BOCHS, vram_size := bochs_get_vram_size bregs }, s1, [])
      else (-1, { hw with type := .VBE }, s1, [])

/- ---------- concrete bus/adapter instances ---------- -/

/-- An all-zero device record (the static table's initial contents). -/
def recE : PCIRec := ⟨0, 0, 0, 0, 0, 0, 0, 0, 0, 0, 0, 0, fun _ => 0, fun _ => 0, fun _ => 0⟩

/-- An empty configuration space: every read returns all-ones. -/
def cfgE : PCIConfig := fun _ _ _ _ => 0xFFFFFFFF

/-- Bochs register file returning 0 (identity probe fails). -/
def bregsE : Nat → Nat := fun _ => 0

/-- The device table before any enumeration. -/
def pciE : PCIState := ⟨fun _ => recE, 0⟩

/-- A concrete adapter state with pre-set geometry. -/
def hwE : GPUHardware := ⟨.NONE, none, 0, 0, 640, 480, 32, 2560, 0, 0, 0, 0, 0, 0⟩

/- ===== End of definitions ===== -/

/- ---------- helper lemmas: bitwise to arithmetic conversions ---------- -/

theorem or_add (a x k : Nat) (h : x < 2 ^ k) : (a * 2 ^ k) ||| x = a * 2 ^ k + x := by
  rw [Nat.mul_comm a (2 ^ k), ← Nat.mul_add_lt_is_or h a]

theorem and_255 (n : Nat) : n &&& 255 = n % 256 := by
  have h := Nat.and_pow_two_sub_one_eq_mod n 8
  norm_num at h
  exact h

theorem and_31 (n : Nat) : n &&& 31 = n % 32 := by
  have h := Nat.and_pow_two_sub_one_eq_mod n 5
  norm_num at h
  exact h

theorem and_63 (n : Nat) : n &&& 63 = n % 64 := by
  have h := Nat.and_pow_two_sub_one_eq_mod n 6
  norm_num at h
  exact h

theorem GET_R_eq (c : Nat) : GET_R c = c / 65536 % 256 := by
  rw [GET_R, Nat.shiftRight_eq_div_pow]
  have h := and_255 (c / 2 ^ 16)
  norm_num at h ⊢
  exact h

theorem GET_G_eq (c : Nat) : GET_G c = c / 256 % 256 := by
  rw [GET_G, Nat.shiftRight_eq_div_pow]
  have h := and_255 (c / 2 ^ 8)
  norm_num at h ⊢
  exact h

theorem GET_B_eq (c : Nat) : GET_B c = c % 256 := by
  rw [GET_B]
  exact and_255 c

theorem GET_A_eq (c : Nat) : GET_A c = c / 16777216 % 256 := by
  rw [GET_A, Nat.shiftRight_eq_div_pow]
  have h := and_255 (c / 2 ^ 24)
  norm_num at h ⊢
  exact h

theorem RGB_eq (r g b : Nat) (hg : g < 256) (hb : b < 256) :
    RGB r g b = r * 65536 + g * 256 + b := by
  rw [RGB, Nat.shiftLeft_eq, Nat.shiftLeft_eq]
  have h1 : (r * 2 ^ 16) ||| (g * 2 ^ 8) = r * 2 ^ 16 + g * 2 ^ 8 :=
    or_add r (g * 2 ^ 8) 16 (by omega)
  rw [h1]
  have h2 : r * 2 ^ 16 + g * 2 ^ 8 = (r * 2 ^ 8 + g) * 2 ^ 8 := by ring
  rw [h2, or_add _ _ 8 (by omega)]
  ring

theorem GET_R_lt (c : Nat) : GET_R c < 256 := by rw [GET_R_eq]; omega

theorem GET_G_lt (c : Nat) : GET_G c < 256 := by rw [GET_G_eq]; omega

theorem GET_B_lt (c : Nat) : GET_B c < 256 := by rw [GET_B_eq]; omega

theorem GET_A_lt (c : Nat) : GET_A c < 256 := by rw [GET_A_eq]; omega

theorem GET_R_RGB (r g b : Nat) (hr : r < 256) (hg : g < 256) (hb : b < 256) :
    GET_R (RGB r g b) = r := by
  rw [RGB_eq r g b hg hb, GET_R_eq]; omega

theorem GET_G_RGB (r g b : Nat) (hg : g < 256) (hb : b < 256) :
    GET_G (RGB r g b) = g := by
  rw [RGB_eq r g b hg hb, GET_G_eq]; omega

theorem GET_B_RGB (r g b : Nat) (hg : g < 256) (hb : b < 256) :
    GET_B (RGB r g b) = b := by
  rw [RGB_eq r g b hg hb, GET_B_eq]; omega

theorem RGB_GET_self (c : Nat) (hc : c < 2 ^ 32) (ha : GET_A c = 0) :
    RGB (GET_R c) (GET_G c) (GET_B c) = c := by
  rw [RGB_eq _ _ _ (GET_G_lt c) (GET_B_lt c), GET_R_eq, GET_G_eq, GET_B_eq]
  rw [GET_A_eq] at ha
  omega

theorem pack565_eq (r g b : Nat) (hg : g < 256) (hb : b < 256) :
    ((((r >>> 3) <<< 11) ||| ((g >>> 2) <<< 5)) ||| (b >>> 3))
      = r / 8 * 2048 + g / 4 * 32 + b / 8 := by
  rw [Nat.shiftLeft_eq, Nat.shiftLeft_eq, Nat.shiftRight_eq_div_pow,
      Nat.shiftRight_eq_div_pow, Nat.shiftRight_eq_div_pow]
  have h1 : (r / 2 ^ 3 * 2 ^ 11) ||| (g / 2 ^ 2 * 2 ^ 5) = r / 2 ^ 3 * 2 ^ 11 + g / 2 ^ 2 * 2 ^ 5 :=
    or_add _ _ 11 (by omega)
  rw [h1]
  have h2 : r / 2 ^ 3 * 2 ^ 11 + g / 2 ^ 2 * 2 ^ 5 = (r / 2 ^ 3 * 2 ^ 6 + g / 2 ^ 2) * 2 ^ 5 := by
    ring
  rw [h2, or_add _ _ 5 (by omega)]
  ring_nf

/- ---------- helper lemmas: memory load after store ---------- -/

theorem ld32_st32 (m : Nat → Nat) (a v : Nat) : ld32 (st32 m a v) a = v % 2 ^ 32 := by
  simp only [ld32, st32, wr]
  simp only [and_255, Nat.shiftRight_eq_div_pow]
  norm_num
  omega

theorem ld16_st16 (m : Nat → Nat) (a v : Nat) : ld16 (st16 m a v) a = v % 2 ^ 16 := by
  simp only [ld16, st16, wr]
  simp only [and_255, Nat.shiftRight_eq_div_pow]
  norm_num
  omega

/- ---------- helper lemmas: put/get roundtrips per format ---------- -/

theorem put_pixel_32 (fb : Framebuffer) (x y : Int) (c : Nat)
    (hg : ¬(x < 0 ∨ (fb.width : Int) ≤ x ∨ y < 0 ∨ (fb.height : Int) ≤ y))
    (hb : fb.bpp = 32) :
    gpu_put_pixel fb x y c = { fb with data := st32 fb.data (y.toNat * fb.pitch + 4 * x.toNat) c } := by
  simp only [gpu_put_pixel, hb]
  rw [if_neg hg]
  simp

theorem roundtrip32 (fb : Framebuffer) (x y : Int) (c : Nat)
    (hg : ¬(x < 0 ∨ (fb.width : Int) ≤ x ∨ y < 0 ∨ (fb.height : Int) ≤ y))
    (hb : fb.bpp = 32) (hc : c < 2 ^ 32) :
    gpu_get_pixel (gpu_put_pixel fb x y c) x y = c := by
  rw [put_pixel_32 fb x y c hg hb]
  simp only [gpu_get_pixel, hb]
  rw [if_neg hg]
  simp only [ld32_st32]
  simp
  omega

theorem roundtrip24 (fb : Framebuffer) (x y : Int) (c : Nat)
    (hg : ¬(x < 0 ∨ (fb.width : Int) ≤ x ∨ y < 0 ∨ (fb.height : Int) ≤ y))
    (hb : fb.bpp = 24) :
    gpu_get_pixel (gpu_put_pixel fb x y c) x y = RGB (GET_R c) (GET_G c) (GET_B c) := by
  have hput : gpu_put_pixel fb x y c =
      { fb with data := wr (wr (wr fb.data (y.toNat * fb.pitch + 3 * x.toNat) (GET_B c)) (y.toNat * fb.pitch + 3 * x.toNat + 1) (GET_G c)) (y.toNat * fb.pitch + 3 * x.toNat + 2) (GET_R c) } := by
    simp only [gpu_put_pixel, hb]
    rw [if_neg hg]
    simp
  rw [hput]
  simp only [gpu_get_pixel, hb]
  rw [if_neg hg]
  simp [wr]

theorem roundtrip16 (fb : Framebuffer) (x y : Int) (c : Nat)
    (hg : ¬(x < 0 ∨ (fb.width : Int) ≤ x ∨ y < 0 ∨ (fb.height : Int) ≤ y))
    (hb : fb.bpp = 16) :
    GET_R (gpu_get_pixel (gpu_put_pixel fb x y c) x y) = (GET_R c >>> 3) <<< 3 ∧
    GET_G (gpu_get_pixel (gpu_put_pixel fb x y c) x y) = (GET_G c >>> 2) <<< 2 ∧
    GET_B (gpu_get_pixel (gpu_put_pixel fb x y c) x y) = (GET_B c >>> 3) <<< 3 := by
  have hput : gpu_put_pixel fb x y c =
      { fb with data := st16 fb.data (y.toNat * fb.pitch + 2 * x.toNat) ((((GET_R c >>> 3) <<< 11) ||| ((GET_G c >>> 2) <<< 5)) ||| (GET_B c >>> 3)) } := by
    simp only [gpu_put_pixel, hb]
    rw [if_neg hg]
    simp
  rw [hput]
  simp only [gpu_get_pixel, hb]
  rw [if_neg hg]
  simp only [ld16_st16]
  rw [pack565_eq _ _ _ (GET_G_lt c) (GET_B_lt c)]
  have hR := GET_R_lt c
  have hG := GET_G_lt c
  have hB := GET_B_lt c
  set r := GET_R c
  set g := GET_G c
  set b := GET_B c
  have hv : (r / 8 * 2048 + g / 4 * 32 + b / 8) % 2 ^ 16 = r / 8 * 2048 + g / 4 * 32 + b / 8 := by
    omega
  rw [hv]
  simp only [and_31, and_63, Nat.shiftRight_eq_div_pow, Nat.shiftLeft_eq]
  norm_num
  refine ⟨?_, ?_, ?_⟩
  · rw [GET_R_RGB] <;> omega
  · rw [GET_G_RGB] <;> omega
  · rw [GET_B_RGB] <;> omega

/- ---------- claim theorems ---------- -/

/-- C1: for bpp in {32, 24, 16} and any in-bounds (x, y), `gpu_put_pixel`
    followed by `gpu_get_pixel` returns the written color with
    format-appropriate precision loss: exactly for 32bpp; with equal
    R, G, B bytes for 24bpp; with each channel 5-6-5-truncated and
    shifted back up for 16bpp (low 3 bits of R and B zeroed, low 2 of G). -/
theorem C1_pixel_roundtrip (fb : Framebuffer) (x y : Int) (c : Nat)
    (hx0 : 0 ≤ x) (hx : x < (fb.width : Int)) (hy0 : 0 ≤ y) (hy : y < (fb.height : Int)) :
    (fb.bpp = 32 → c < 2 ^ 32 → gpu_get_pixel (gpu_put_pixel fb x y c) x y = c) ∧
    (fb.bpp = 24 →
      GET_R (gpu_get_pixel (gpu_put_pixel fb x y c) x y) = GET_R c ∧
      GET_G (gpu_get_pixel (gpu_put_pixel fb x y c) x y) = GET_G c ∧
      GET_B (gpu_get_pixel (gpu_put_pixel fb x y c) x y) = GET_B c) ∧
    (fb.bpp = 16 →
      GET_R (gpu_get_pixel (gpu_put_pixel fb x y c) x y) = (GET_R c >>> 3) <<< 3 ∧
      GET_G (gpu_get_pixel (gpu_put_pixel fb x y c) x y) = (GET_G c >>> 2) <<< 2 ∧
      GET_B (gpu_get_pixel (gpu_put_pixel fb x y c) x y) = (GET_B c >>> 3) <<< 3) := by
  have hg : ¬(x < 0 ∨ (fb.width : Int) ≤ x ∨ y < 0 ∨ (fb.height : Int) ≤ y) := by omega
  refine ⟨fun hb hc => roundtrip32 fb x y c hg hb hc, fun hb => ?_, fun hb => roundtrip16 fb x y c hg hb⟩
  rw [roundtrip24 fb x y c hg hb]
  exact ⟨GET_R_RGB _ _ _ (GET_R_lt c) (GET_G_lt c) (GET_B_lt c),
         GET_G_RGB _ _ _ (GET_G_lt c) (GET_B_lt c),
         GET_B_RGB _ _ _ (GET_G_lt c) (GET_B_lt c)⟩

/-- Witness for C1 at a concrete 32bpp and a concrete 16bpp surface. -/
theorem C1_witness :
    ((0 : Int) ≤ 1 ∧ (1 : Int) < (fbA.width : Int) ∧ (0 : Int) ≤ 2 ∧ (2 : Int) < (fbA.height : Int) ∧
      fbA.bpp = 32 ∧ 0x12345678 < 2 ^ 32 ∧
      gpu_get_pixel (gpu_put_pixel fbA 1 2 0x12345678) 1 2 = 0x12345678) ∧
    (fbB.bpp = 16 ∧
      GET_R (gpu_get_pixel (gpu_put_pixel fbB 1 2 0xFF87E5) 1 2) = (GET_R 0xFF87E5 >>> 3) <<< 3) :=
  ⟨⟨by decide, by decide, by decide, by decide, rfl, by norm_num,
    (C1_pixel_roundtrip fbA 1 2 0x12345678 (by decide) (by decide) (by decide) (by decide)).1 rfl (by norm_num)⟩,
   ⟨rfl, ((C1_pixel_roundtrip fbB 1 2 0xFF87E5 (by decide) (by decide) (by decide) (by decide)).2.2 rfl).1⟩⟩

/-- C2: out-of-bounds coordinates make `gpu_put_pixel` a no-op (the back
    buffer, byte for byte, is unchanged) and make `gpu_get_pixel` return 0. -/
theorem C2_oob_noop (fb : Framebuffer) (x y : Int) (c : Nat)
    (h : x < 0 ∨ (fb.width : Int) ≤ x ∨ y < 0 ∨ (fb.height : Int) ≤ y) :
    gpu_put_pixel fb x y c = fb ∧
    (∀ a, (gpu_put_pixel fb x y c).data a = fb.data a) ∧
    gpu_get_pixel fb x y = 0 := by
  have h1 : gpu_put_pixel fb x y c = fb := by
    simp only [gpu_put_pixel]
    rw [if_pos h]
  have h2 : gpu_get_pixel fb x y = 0 := by
    simp only [gpu_get_pixel]
    rw [if_pos h]
  exact ⟨h1, fun a => by rw [h1], h2⟩

/-- Witness for C2 at x = -1 on a concrete surface. -/
theorem C2_witness :
    ((-1 : Int) < 0 ∨ (fbA.width : Int) ≤ -1 ∨ (0 : Int) < 0 ∨ (fbA.height : Int) ≤ 0) ∧
    (gpu_put_pixel fbA (-1) 0 7 = fbA ∧
     (∀ a, (gpu_put_pixel fbA (-1) 0 7).data a = fbA.data a) ∧
     gpu_get_pixel fbA (-1) 0 = 0) :=
  ⟨Or.inl (by decide), C2_oob_noop fbA (-1) 0 7 (Or.inl (by decide))⟩

/-- Counterexample for C3 as stated: `gpu_blend`/`color_blend` rebuild the
    result with the `RGB` macro, so a background (resp. foreground) whose
    alpha byte is nonzero is not returned unchanged at alpha 0 (resp. 255). -/
theorem C3_cex :
    gpu_blend 0 0x01000000 0 ≠ 0x01000000 ∧ color_blend 0x01000000 0 255 ≠ 0x01000000 := by
  constructor <;> decide

/-- C3 (amended): at the extremes the blends return the R, G, B channels of
    bg (alpha 0) resp. fg (alpha 255) reassembled with a cleared alpha
    byte; the color itself is returned exactly when its alpha byte is 0. -/
theorem C3_blend_extremes (fg bg : Nat) :
    gpu_blend fg bg 0 = RGB (GET_R bg) (GET_G bg) (GET_B bg) ∧
    gpu_blend fg bg 255 = RGB (GET_R fg) (GET_G fg) (GET_B fg) ∧
    color_blend fg bg 0 = RGB (GET_R bg) (GET_G bg) (GET_B bg) ∧
    color_blend fg bg 255 = RGB (GET_R fg) (GET_G fg) (GET_B fg) ∧
    (GET_A bg = 0 → bg < 2 ^ 32 → gpu_blend fg bg 0 = bg ∧ color_blend fg bg 0 = bg) ∧
    (GET_A fg = 0 → fg < 2 ^ 32 → gpu_blend fg bg 255 = fg ∧ color_blend fg bg 255 = fg) := by
  have hRf := GET_R_lt fg
  have hGf := GET_G_lt fg
  have hBf := GET_B_lt fg
  have hRb := GET_R_lt bg
  have hGb := GET_G_lt bg
  have hBb := GET_B_lt bg
  have h1 : gpu_blend fg bg 0 = RGB (GET_R bg) (GET_G bg) (GET_B bg) := by
    simp only [gpu_blend]
    rw [show (GET_R fg * 0 + GET_R bg * (255 - 0)) / 255 = GET_R bg by omega,
        show (GET_G fg * 0 + GET_G bg * (255 - 0)) / 255 = GET_G bg by omega,
        show (GET_B fg * 0 + GET_B bg * (255 - 0)) / 255 = GET_B bg by omega]
  have h2 : gpu_blend fg bg 255 = RGB (GET_R fg) (GET_G fg) (GET_B fg) := by
    simp only [gpu_blend]
    rw [show (GET_R fg * 255 + GET_R bg * (255 - 255)) / 255 = GET_R fg by omega,
        show (GET_G fg * 255 + GET_G bg * (255 - 255)) / 255 = GET_G fg by omega,
        show (GET_B fg * 255 + GET_B bg * (255 - 255)) / 255 = GET_B fg by omega]
  have h3 : color_blend fg bg 0 = RGB (GET_R bg) (GET_G bg) (GET_B bg) := by
    simp only [color_blend]
    rw [show (GET_R fg * 0 + GET_R bg * (255 - 0)) / 255 % 256 = GET_R bg by omega,
        show (GET_G fg * 0 + GET_G bg * (255 - 0)) / 255 % 256 = GET_G bg by omega,
        show (GET_B fg * 0 + GET_B bg * (255 - 0)) / 255 % 256 = GET_B bg by omega]
  have h4 : color_blend fg bg 255 = RGB (GET_R fg) (GET_G fg) (GET_B fg) := by
    simp only [color_blend]
    rw [show (GET_R fg * 255 + GET_R bg * (255 - 255)) / 255 % 256 = GET_R fg by omega,
        show (GET_G fg * 255 + GET_G bg * (255 - 255)) / 255 % 256 = GET_G fg by omega,
        show (GET_B fg * 255 + GET_B bg * (255 - 255)) / 255 % 256 = GET_B fg by omega]
  refine ⟨h1, h2, h3, h4, fun ha hlt => ?_, fun ha hlt => ?_⟩
  · rw [h1, h3, RGB_GET_self bg hlt ha]
    exact ⟨rfl, rfl⟩
  · rw [h2, h4, RGB_GET_self fg hlt ha]
    exact ⟨rfl, rfl⟩

/-- Witness for C3 (amended) at concrete alpha-free colors. -/
theorem C3_witness :
    GET_A (RGB 9 8 7) = 0 ∧ RGB 9 8 7 < 2 ^ 32 ∧
    gpu_blend (RGB 1 2 3) (RGB 9 8 7) 0 = RGB 9 8 7 ∧
    color_blend (RGB 1 2 3) (RGB 9 8 7) 0 = RGB 9 8 7 :=
  ⟨by decide, by decide, ((C3_blend_extremes (RGB 1 2 3) (RGB 9 8 7)).2.2.2.2.1 (by decide) (by decide)).1,
    ((C3_blend_extremes (RGB 1 2 3) (RGB 9 8 7)).2.2.2.2.1 (by decide) (by decide)).2⟩

/-- C4: for in-bounds coordinates, `gpu_put_pixel_alpha` leaves the surface
    untouched at source alpha 0, writes the color directly at alpha 255
    (read back exactly on a 32bpp surface), and otherwise reads the
    destination and writes the per-channel straight-alpha blend
    `(fg*a + bg*(255-a))/255`. -/
theorem C4_put_pixel_alpha_cases (fb : Framebuffer) (x y : Int) (c : Nat)
    (hx0 : 0 ≤ x) (hx : x < (fb.width : Int)) (hy0 : 0 ≤ y) (hy : y < (fb.height : Int)) :
    (GET_A c = 0 → gpu_put_pixel_alpha fb x y c = fb) ∧
    (GET_A c = 255 → gpu_put_pixel_alpha fb x y c = gpu_put_pixel fb x y c) ∧
    (GET_A c = 255 → fb.bpp = 32 → c < 2 ^ 32 →
      gpu_get_pixel (gpu_put_pixel_alpha fb x y c) x y = c) ∧
    (0 < GET_A c → GET_A c < 255 →
      gpu_put_pixel_alpha fb x y c = gpu_put_pixel fb x y
        (RGB ((GET_R c * GET_A c + GET_R (gpu_get_pixel fb x y) * (255 - GET_A c)) / 255)
             ((GET_G c * GET_A c + GET_G (gpu_get_pixel fb x y) * (255 - GET_A c)) / 255)
             ((GET_B c * GET_A c + GET_B (gpu_get_pixel fb x y) * (255 - GET_A c)) / 255))) := by
  have hg : ¬(x < 0 ∨ (fb.width : Int) ≤ x ∨ y < 0 ∨ (fb.height : Int) ≤ y) := by omega
  have hfull : GET_A c = 255 → gpu_put_pixel_alpha fb x y c = gpu_put_pixel fb x y c := by
    intro h255
    simp only [gpu_put_pixel_alpha, h255]
    norm_num
  refine ⟨fun h0 => ?_, hfull, fun h255 hb hc => ?_, fun hpos hlt => ?_⟩
  · simp only [gpu_put_pixel_alpha, h0]
    norm_num
  · rw [hfull h255]
    exact roundtrip32 fb x y c hg hb hc
  · simp only [gpu_put_pixel_alpha, gpu_blend]
    rw [if_neg (by omega), if_neg (by omega)]

/-- Witness for C4: opaque red at alpha 128 over black lands as (128,0,0). -/
theorem C4_witness :
    (0 : Int) ≤ 0 ∧ (0 : Int) < (fbA.width : Int) ∧ 0 < GET_A 0x80FF0000 ∧ GET_A 0x80FF0000 < 255 ∧
    gpu_put_pixel_alpha fbA 0 0 0x80FF0000 = gpu_put_pixel fbA 0 0
      (RGB ((GET_R 0x80FF0000 * GET_A 0x80FF0000 + GET_R (gpu_get_pixel fbA 0 0) * (255 - GET_A 0x80FF0000)) / 255)
           ((GET_G 0x80FF0000 * GET_A 0x80FF0000 + GET_G (gpu_get_pixel fbA 0 0) * (255 - GET_A 0x80FF0000)) / 255)
           ((GET_B 0x80FF0000 * GET_A 0x80FF0000 + GET_B (gpu_get_pixel fbA 0 0) * (255 - GET_A 0x80FF0000)) / 255)) ∧
    gpu_get_pixel (gpu_put_pixel_alpha fbA 0 0 0x80FF0000) 0 0 = RGB 128 0 0 := by
  have h := (C4_put_pixel_alpha_cases fbA 0 0 0x80FF0000 (by decide) (by decide) (by decide) (by decide)).2.2.2
    (by decide) (by decide)
  refine ⟨by decide, by decide, by decide, by decide, h, ?_⟩
  rw [h]
  decide

/-- C10: the blend result of `gpu_blend` and `color_blend` always has a
    zero alpha byte (the whole value fits in the low 24 bits) and every
    channel within [0,255]; neither input's alpha byte is propagated. -/
theorem C10_blend_output (fg bg a : Nat) (ha : a < 256) :
    gpu_blend fg bg a < 2 ^ 24 ∧ GET_A (gpu_blend fg bg a) = 0 ∧
    GET_R (gpu_blend fg bg a) ≤ 255 ∧ GET_G (gpu_blend fg bg a) ≤ 255 ∧
    GET_B (gpu_blend fg bg a) ≤ 255 ∧
    color_blend fg bg a < 2 ^ 24 ∧ GET_A (color_blend fg bg a) = 0 ∧
    GET_R (color_blend fg bg a) ≤ 255 ∧ GET_G (color_blend fg bg a) ≤ 255 ∧
    GET_B (color_blend fg bg a) ≤ 255 := by
  have hbound : ∀ u v : Nat, u < 256 → v < 256 → (u * a + v * (255 - a)) / 255 ≤ 255 := by
    intro u v hu hv
    have h1 : u * a ≤ 255 * a := Nat.mul_le_mul_right a (by omega)
    have h2 : v * (255 - a) ≤ 255 * (255 - a) := Nat.mul_le_mul_right (255 - a) (by omega)
    omega
  have hr := hbound _ _ (GET_R_lt fg) (GET_R_lt bg)
  have hgr := hbound _ _ (GET_G_lt fg) (GET_G_lt bg)
  have hb := hbound _ _ (GET_B_lt fg) (GET_B_lt bg)
  have e1 : gpu_blend fg bg a < 2 ^ 24 := by
    simp only [gpu_blend]
    rw [RGB_eq _ _ _ (by omega) (by omega)]
    omega
  have e2 : color_blend fg bg a < 2 ^ 24 := by
    simp only [color_blend]
    rw [RGB_eq _ _ _ (by omega) (by omega)]
    omega
  have ga1 : GET_A (gpu_blend fg bg a) = 0 := by
    rw [GET_A_eq]
    omega
  have ga2 : GET_A (color_blend fg bg a) = 0 := by
    rw [GET_A_eq]
    omega
  exact ⟨e1, ga1, by have := GET_R_lt (gpu_blend fg bg a); omega,
    by have := GET_G_lt (gpu_blend fg bg a); omega,
    by have := GET_B_lt (gpu_blend fg bg a); omega,
    e2, ga2, by have := GET_R_lt (color_blend fg bg a); omega,
    by have := GET_G_lt (color_blend fg bg a); omega,
    by have := GET_B_lt (color_blend fg bg a); omega⟩

/-- Witness for C10 at a concrete blend with alpha-carrying inputs. -/
theorem C10_witness :
    (200 : Nat) < 256 ∧ GET_A (gpu_blend 0xAABBCCDD 0x11223344 200) = 0 ∧
    GET_A (color_blend 0xAABBCCDD 0x11223344 200) = 0 :=
  ⟨by norm_num, (C10_blend_output 0xAABBCCDD 0x11223344 200 (by norm_num)).2.1,
    (C10_blend_output 0xAABBCCDD 0x11223344 200 (by norm_num)).2.2.2.2.2.2.1⟩

/-- Int32 wrap is the identity on values in range. -/
theorem toInt32_eq (n : Int) (h1 : -(2 ^ 31) ≤ n) (h2 : n < 2 ^ 31) : toInt32 n = n := by
  unfold toInt32
  omega

/-- Counterexample for C9 as stated: a rectangle whose `x + width` sum
    overflows int32 (width 2^31) has a non-empty intersection with the
    viewport, yet `gpu_clip_rect` reports 0 (no intersection). -/
theorem C9_cex :
    (gpu_clip_rect vpC rectC).1 = 0 ∧
    (gpu_clip_rect vpC rectC).2 = rectC ∧
    Rect.contains rectC 0 0 ∧ Viewport.contains vpC 0 0 :=
  ⟨by decide, by decide, by decide, by decide⟩

/-- C9 (amended): when the corner sums of the rectangle and the viewport
    stay within int32, `gpu_clip_rect` returns 1 exactly when the
    rectangle meets the viewport, in which case the result is precisely
    the intersection; on 0 the rectangle is untouched. -/
theorem C9_clip_rect (vp : Viewport) (r : Rect)
    (hrx : -(2 ^ 31) ≤ r.x) (hrw : r.x + (r.w : Int) < 2 ^ 31)
    (hry : -(2 ^ 31) ≤ r.y) (hrh : r.y + (r.h : Int) < 2 ^ 31)
    (hvx : -(2 ^ 31) ≤ vp.x) (hvw : vp.x + (vp.w : Int) < 2 ^ 31)
    (hvy : -(2 ^ 31) ≤ vp.y) (hvh : vp.y + (vp.h : Int) < 2 ^ 31) :
    ((gpu_clip_rect vp r).1 = 1 ↔ ∃ px py, Rect.contains r px py ∧ Viewport.contains vp px py) ∧
    ((gpu_clip_rect vp r).1 = 0 → (gpu_clip_rect vp r).2 = r) ∧
    ((gpu_clip_rect vp r).1 = 1 → ∀ px py,
      Rect.contains (gpu_clip_rect vp r).2 px py ↔
        Rect.contains r px py ∧ Viewport.contains vp px py) := by
  have e1 : toInt32 (r.x + (r.w : Int)) = r.x + (r.w : Int) := toInt32_eq _ (by omega) hrw
  have e2 : toInt32 (r.y + (r.h : Int)) = r.y + (r.h : Int) := toInt32_eq _ (by omega) hrh
  have e3 : toInt32 (vp.x + (vp.w : Int)) = vp.x + (vp.w : Int) := toInt32_eq _ (by omega) hvw
  have e4 : toInt32 (vp.y + (vp.h : Int)) = vp.y + (vp.h : Int) := toInt32_eq _ (by omega) hvh
  have m1 : (if r.x < vp.x then vp.x else r.x) = max r.x vp.x := by
    split <;> omega
  have m2 : (if r.y < vp.y then vp.y else r.y) = max r.y vp.y := by
    split <;> omega
  have m3 : (if r.x + (r.w : Int) > vp.x + (vp.w : Int) then vp.x + (vp.w : Int) else r.x + (r.w : Int)) = min (r.x + (r.w : Int)) (vp.x + (vp.w : Int)) := by
    split <;> omega
  have m4 : (if r.y + (r.h : Int) > vp.y + (vp.h : Int) then vp.y + (vp.h : Int) else r.y + (r.h : Int)) = min (r.y + (r.h : Int)) (vp.y + (vp.h : Int)) := by
    split <;> omega
  simp only [gpu_clip_rect, e1, e2, e3, e4, m1, m2, m3, m4]
  split_ifs with hC
  · refine ⟨⟨fun h => absurd h (by simp), ?_⟩, fun _ => rfl, fun h => absurd h (by simp)⟩
    rintro ⟨px, py, hr1, hv1⟩
    exfalso
    simp only [Rect.contains, Viewport.contains] at hr1 hv1
    omega
  · refine ⟨⟨fun _ => ?_, fun _ => rfl⟩, fun h0 => absurd h0 (by simp), fun _ px py => ?_⟩
    · refine ⟨max r.x vp.x, max r.y vp.y, ?_, ?_⟩ <;>
        (simp only [Rect.contains, Viewport.contains]; omega)
    · simp only [Rect.contains, Viewport.contains]
      omega

/-- An invisible layer contributes nothing to the compositor accumulator. -/
theorem composite_step_invisible (x y : Int) (p : Nat) (l : Layer) (h : l.visible = 0) :
    composite_step x y p l = p := by
  simp [composite_step, h]

/-- Counterexample for C5 as stated: with only the Background visible and
    the destination pixel inside its rectangle, a stored pixel with alpha
    128 is composited over black, so the value written differs from the
    stored pixel. -/
theorem C5_cex :
    (exD.layers 0).visible ≠ 0 ∧ (exD.layers 1).visible = 0 ∧
    (exD.layers 2).visible = 0 ∧ (exD.layers 3).visible = 0 ∧
    (exD.layers 4).visible = 0 ∧ (exD.layers 0).alpha = 255 ∧
    Rect.contains ⟨(exD.layers 0).x, (exD.layers 0).y, (exD.layers 0).width, (exD.layers 0).height⟩ 0 0 ∧
    compositePixel exD 0 0 ≠ layer_src (exD.layers 0) 0 0 :=
  ⟨by decide, by decide, by decide, by decide, by decide, by decide, by decide, by decide⟩

/-- C5 (amended): at a destination pixel where only the Background layer is
    visible (its alpha multiplier at the default 255) and which lies inside
    that layer's rectangle — the layer's uint32 dimensions being below
    2^31, so the C's int32 casts of them are value-preserving — the value
    the compositor writes equals the layer's stored pixel when that
    pixel's alpha byte is 255; for alpha in (0,255) it is the stored pixel
    straight-alpha blended over the zero accumulator; for alpha 0 it is 0.
    Invisible layers contribute nothing. -/
theorem C5_composite_background (d : Display) (x y : Int)
    (hv0 : ¬(d.layers 0).visible = 0) (hv1 : (d.layers 1).visible = 0)
    (hv2 : (d.layers 2).visible = 0) (hv3 : (d.layers 3).visible = 0)
    (hv4 : (d.layers 4).visible = 0) (ha : (d.layers 0).alpha = 255)
    (hw : (d.layers 0).width < 2 ^ 31) (hht : (d.layers 0).height < 2 ^ 31)
    (hin : 0 ≤ x - (d.layers 0).x ∧ x - (d.layers 0).x < ((d.layers 0).width : Int) ∧
           0 ≤ y - (d.layers 0).y ∧ y - (d.layers 0).y < ((d.layers 0).height : Int)) :
    (GET_A (layer_src (d.layers 0) x y) = 255 →
      compositePixel d x y = layer_src (d.layers 0) x y) ∧
    (0 < GET_A (layer_src (d.layers 0) x y) → GET_A (layer_src (d.layers 0) x y) < 255 →
      compositePixel d x y =
        gpu_blend (layer_src (d.layers 0) x y) 0 (GET_A (layer_src (d.layers 0) x y))) ∧
    (GET_A (layer_src (d.layers 0) x y) = 0 → compositePixel d x y = 0) := by
  have hred : compositePixel d x y = composite_step x y 0 (d.layers 0) := by
    unfold compositePixel
    rw [composite_step_invisible x y _ _ hv4, composite_step_invisible x y _ _ hv3,
        composite_step_invisible x y _ _ hv2, composite_step_invisible x y _ _ hv1]
  have ew : toInt32 (((d.layers 0).width : Int)) = ((d.layers 0).width : Int) :=
    toInt32_eq _ (by omega) (by omega)
  have eh : toInt32 (((d.layers 0).height : Int)) = ((d.layers 0).height : Int) :=
    toInt32_eq _ (by omega) (by omega)
  have hin' : 0 ≤ x - (d.layers 0).x ∧ x - (d.layers 0).x < toInt32 (((d.layers 0).width : Int)) ∧
      0 ≤ y - (d.layers 0).y ∧ y - (d.layers 0).y < toInt32 (((d.layers 0).height : Int)) := by
    rw [ew, eh]
    exact hin
  rw [hred]
  simp only [composite_step, ha, lt_self_iff_false, if_false]
  rw [if_neg hv0, if_pos hin']
  refine ⟨fun h255 => ?_, fun hpos hlt => ?_, fun h0 => ?_⟩
  · rw [if_pos h255]
  · rw [if_neg (by omega), if_pos (by omega)]
  · rw [if_neg (by omega), if_neg (by omega)]

/-- Witness for C5 (amended) on the concrete alpha-128 background display. -/
theorem C5_witness :
    ¬(exD.layers 0).visible = 0 ∧ (exD.layers 1).visible = 0 ∧
    (exD.layers 0).alpha = 255 ∧ 0 < GET_A (layer_src (exD.layers 0) 0 0) ∧
    GET_A (layer_src (exD.layers 0) 0 0) < 255 ∧
    compositePixel exD 0 0 =
      gpu_blend (layer_src (exD.layers 0) 0 0) 0 (GET_A (layer_src (exD.layers 0) 0 0)) := by
  have h := (C5_composite_background exD 0 0 (by decide) (by decide) (by decide) (by decide)
    (by decide) (by decide) (by decide) (by decide) (by decide)).2.1 (by decide) (by decide)
  exact ⟨by decide, by decide, by decide, by decide, by decide, h⟩

/-- Witness for C9 (amended) at a small in-range rectangle. -/
theorem C9_witness :
    (-(2 ^ 31) : Int) ≤ rectD.x ∧ rectD.x + (rectD.w : Int) < 2 ^ 31 ∧
    (-(2 ^ 31) : Int) ≤ rectD.y ∧ rectD.y + (rectD.h : Int) < 2 ^ 31 ∧
    (-(2 ^ 31) : Int) ≤ vpC.x ∧ vpC.x + (vpC.w : Int) < 2 ^ 31 ∧
    (-(2 ^ 31) : Int) ≤ vpC.y ∧ vpC.y + (vpC.h : Int) < 2 ^ 31 ∧
    ((gpu_clip_rect vpC rectD).1 = 1 ↔
      ∃ px py, Rect.contains rectD px py ∧ Viewport.contains vpC px py) := by
  have h := C9_clip_rect vpC rectD (by decide) (by decide) (by decide) (by decide)
    (by decide) (by decide) (by decide) (by decide)
  exact ⟨by decide, by decide, by decide, by decide, by decide, by decide, by decide, by decide, h.1⟩

/-- A byte inside the copied span of a row reads back the source byte. -/
theorem copy_row_hit (src : Nat → Nat) (sb db : Nat) (dst : Nat → Nat) (n i : Nat) (hi : i < n) :
    copy_row src sb db dst n (db + i) = src (sb + i) := by
  induction n with
  | zero => omega
  | succ k ih =>
    by_cases h : i = k
    · subst h
      simp [copy_row, wr]
    · have : i < k := by omega
      simp only [copy_row, wr]
      rw [if_neg (by omega)]
      exact ih this

/-- A byte outside the copied span of a row is untouched. -/
theorem copy_row_miss (src : Nat → Nat) (sb db : Nat) (dst : Nat → Nat) (n a : Nat)
    (ha : a < db ∨ db + n ≤ a) : copy_row src sb db dst n a = dst a := by
  induction n with
  | zero => rfl
  | succ k ih =>
    simp only [copy_row, wr]
    rw [if_neg (by omega)]
    exact ih (by omega)

/-- Byte i of destination row y reads back byte i of source row y, rows
    addressed by their own pitches (destination rows must not overlap). -/
theorem copy_rows_hit (src : Nat → Nat) (spitch dpitch rowBytes : Nat) (dst : Nat → Nat)
    (n y i : Nat) (hp : rowBytes ≤ dpitch) (hy : y < n) (hi : i < rowBytes) :
    copy_rows src spitch dpitch rowBytes dst n (y * dpitch + i) = src (y * spitch + i) := by
  induction n with
  | zero => omega
  | succ k ih =>
    by_cases h : y = k
    · subst h
      simp only [copy_rows]
      exact copy_row_hit _ _ _ _ _ _ hi
    · have hyk : y < k := by omega
      simp only [copy_rows]
      have h1 : (y + 1) * dpitch ≤ k * dpitch := Nat.mul_le_mul_right dpitch (by omega)
      have h2 : y * dpitch + dpitch = (y + 1) * dpitch := by ring
      rw [copy_row_miss _ _ _ _ _ _ (by omega)]
      exact ih hyk

/-- A byte in no destination row span is untouched by the whole copy. -/
theorem copy_rows_miss (src : Nat → Nat) (spitch dpitch rowBytes : Nat) (dst : Nat → Nat)
    (n a : Nat) (ha : ∀ y, y < n → ¬(y * dpitch ≤ a ∧ a < y * dpitch + rowBytes)) :
    copy_rows src spitch dpitch rowBytes dst n a = dst a := by
  induction n with
  | zero => rfl
  | succ k ih =>
    simp only [copy_rows]
    rw [copy_row_miss _ _ _ _ _ _ (by have := ha k (by omega); omega)]
    exact ih (fun y hy => ha y (by omega))

/-- C8: for a handoff record with fb_width=800, fb_height=600, fb_bpp=32
    (and a device pitch of at least one row), `gpu_init` sizes the back
    buffer with pitch exactly 800*4 = 3200 bytes (3200*600 = 800*600*4
    bytes total), and `gpu_present` copies exactly 3200 bytes per row for
    600 rows, reading source rows by the back buffer's pitch and writing
    destination rows by the device's pitch; all other front-buffer bytes
    are untouched. -/
theorem C8_present_800x600 (info : BootInfo) (mem front : Nat → Nat)
    (h800 : info.fb_width = 800) (h600 : info.fb_height = 600) (h32 : info.fb_bpp = 32)
    (haddr : info.fb_addr ≠ 0) (hpitch : 3200 ≤ info.fb_pitch) :
    ∃ dev bb, gpu_init info mem = some (dev, bb) ∧
      bb.pitch = 3200 ∧ bb.height = 600 ∧ bb.pitch * bb.height = 800 * 600 * 4 ∧
      bb.width * dev.bytes_per_pixel = 3200 ∧ dev.pitch = info.fb_pitch ∧
      (∀ y i, y < 600 → i < 3200 →
        gpu_present bb dev front (y * dev.pitch + i) = bb.data (y * bb.pitch + i)) ∧
      (∀ a, (∀ y, y < 600 → ¬(y * dev.pitch ≤ a ∧ a < y * dev.pitch + 3200)) →
        gpu_present bb dev front a = front a) := by
  obtain ⟨mg, bd, kp, ks, fa, fp, fw, fh, fbp, ft⟩ := info
  simp only at h800 h600 h32 haddr hpitch
  subst h800 h600 h32
  have hinit : gpu_init ⟨mg, bd, kp, ks, fa, fp, 800, 600, 32, ft⟩ mem =
      some (⟨.VBE, gpu_detect_format 32, fa, fp * 600, 800, 600, fp, 32, 4⟩,
            ⟨clearBytes mem (3200 * 600), 800, 600, 3200, 32⟩) := by
    simp only [gpu_init]
    rw [if_neg (by omega)]
  refine ⟨_, _, hinit, rfl, rfl, by norm_num, by norm_num, rfl, fun y i hy hi => ?_, fun a ha => ?_⟩
  · dsimp only [gpu_present]
    exact copy_rows_hit _ _ _ _ _ _ _ _ (by omega) hy hi
  · dsimp only [gpu_present]
    exact copy_rows_miss _ _ _ _ _ _ _ (fun y hy => ha y hy)

/-- C7: when the bus scan finds no display-class device and the emulated
    adapter's I/O identity probe fails, `gpu_hw_init` resolves to the
    legacy-VESA classification (GPU_HW_VBE) and returns -1, leaving the
    stored geometry untouched; every subsequent `gpu_hw_set_mode` then
    returns -1, changes nothing, and issues no register write. -/
theorem C7_fallback_vbe (cfg : PCIConfig) (bregs : Nat → Nat) (s : PCIState) (hw0 : GPUHardware)
    (hnd : pci_find_display (pci_enumerate cfg s) = none)
    (hnb : bochs_detect bregs = false) :
    (gpu_hw_init cfg bregs s hw0).1 = -1 ∧
    (gpu_hw_init cfg bregs s hw0).2.1.type = .VBE ∧
    (gpu_hw_init cfg bregs s hw0).2.2.2 = [] ∧
    (gpu_hw_init cfg bregs s hw0).2.1.width = hw0.width ∧
    (gpu_hw_init cfg bregs s hw0).2.1.height = hw0.height ∧
    (gpu_hw_init cfg bregs s hw0).2.1.bpp = hw0.bpp ∧
    (gpu_hw_init cfg bregs s hw0).2.1.pitch = hw0.pitch ∧
    (∀ w h b, gpu_hw_set_mode (gpu_hw_init cfg bregs s hw0).2.1 w h b =
      (-1, (gpu_hw_init cfg bregs s hw0).2.1, [])) := by
  have hinit : gpu_hw_init cfg bregs s hw0 =
      (-1, { hw0 with type := .VBE, pci_dev := none, fb_addr := 0, mmio_addr := 0, has_accel := 0, has_cursor := 0 }, pci_enumerate cfg s, []) := by
    simp only [gpu_hw_init, hnd, hnb]
    norm_num
  rw [hinit]
  refine ⟨rfl, rfl, rfl, rfl, rfl, rfl, rfl, fun w h b => ?_⟩
  simp [gpu_hw_set_mode]

/-- Witness for C7: an all-empty configuration space (every read returns
    all-ones) and a zeroed Bochs register file. -/
theorem C7_witness :
    pci_find_display (pci_enumerate cfgE pciE) = none ∧
    bochs_detect bregsE = false ∧
    (gpu_hw_init cfgE bregsE pciE hwE).1 = -1 ∧
    (gpu_hw_init cfgE bregsE pciE hwE).2.1.type = .VBE ∧
    (gpu_hw_init cfgE bregsE pciE hwE).2.2.2 = [] ∧
    gpu_hw_set_mode (gpu_hw_init cfgE bregsE pciE hwE).2.1 1024 768 32 =
      (-1, (gpu_hw_init cfgE bregsE pciE hwE).2.1, []) := by
  have hnd : pci_find_display (pci_enumerate cfgE pciE) = none := rfl
  have hnb : bochs_detect bregsE = false := rfl
  have h := C7_fallback_vbe cfgE bregsE pciE hwE hnd hnb
  exact ⟨hnd, hnb, h.1, h.2.1, h.2.2.1, h.2.2.2.2.2.2.2 1024 768 32⟩

/-- Witness for C8 at the concrete 800x600x32 record with pitch 4096. -/
theorem C8_witness :
    infoW.fb_width = 800 ∧ infoW.fb_height = 600 ∧ infoW.fb_bpp = 32 ∧
    infoW.fb_addr ≠ 0 ∧ 3200 ≤ infoW.fb_pitch ∧
    (∃ dev bb, gpu_init infoW (fun _ => 7) = some (dev, bb) ∧
      bb.pitch = 3200 ∧ bb.height = 600 ∧ bb.pitch * bb.height = 800 * 600 * 4 ∧
      bb.width * dev.bytes_per_pixel = 3200 ∧ dev.pitch = infoW.fb_pitch ∧
      (∀ y i, y < 600 → i < 3200 →
        gpu_present bb dev (fun _ => 9) (y * dev.pitch + i) = bb.data (y * bb.pitch + i)) ∧
      (∀ a, (∀ y, y < 600 → ¬(y * dev.pitch ≤ a ∧ a < y * dev.pitch + 3200)) →
        gpu_present bb dev (fun _ => 9) a = 9)) := by
  have h := C8_present_800x600 infoW (fun _ => 7) (fun _ => 9) rfl rfl rfl (by decide) (by decide)
  exact ⟨rfl, rfl, rfl, by decide, by decide, h⟩

theorem upd_at {α : Type} (f : Nat → α) (i : Nat) (v : α) : upd f i v i = v := by
  simp [upd]

theorem upd_ne {α : Type} (f : Nat → α) (i : Nat) (v : α) (j : Nat) (h : j ≠ i) :
    upd f i v j = f j := by
  simp [upd, h]

theorem upd_self {α : Type} (f : Nat → α) (i : Nat) : upd f i (f i) = f := by
  funext j
  unfold upd
  split
  · rename_i h
    rw [h]
  · rfl

theorem read_bars_frame (cfg : PCIConfig) (b sl f : Nat) :
    ∀ fuel i maps j, j < i →
      (read_bars cfg b sl f fuel i maps).1 j = maps.1 j ∧
      (read_bars cfg b sl f fuel i maps).2.1 j = maps.2.1 j ∧
      (read_bars cfg b sl f fuel i maps).2.2 j = maps.2.2 j := by
  intro fuel
  induction fuel with
  | zero => intro i maps j hj; exact ⟨rfl, rfl, rfl⟩
  | succ k ih =>
    intro i maps j hj
    simp only [read_bars]
    by_cases hi : i < 6
    · rw [if_pos hi]
      by_cases h0 : pci_read32 cfg b sl f (0x10 + i * 4) = 0
      · rw [if_pos h0]
        have h := ih (i + 1) (upd maps.1 i (pci_read32 cfg b sl f (0x10 + i * 4)), upd maps.2.1 i (pci_get_bar_size b sl f i), upd maps.2.2 i 0) j (by omega)
        rw [h.1, h.2.1, h.2.2]
        exact ⟨upd_ne _ _ _ _ (by omega), upd_ne _ _ _ _ (by omega), upd_ne _ _ _ _ (by omega)⟩
      · rw [if_neg h0]
        by_cases h1 : pci_read32 cfg b sl f (0x10 + i * 4) &&& 0x01 ≠ 0
        · rw [if_pos h1]
          have h := ih (i + 1) (upd maps.1 i (pci_read32 cfg b sl f (0x10 + i * 4)), upd maps.2.1 i (pci_get_bar_size b sl f i), upd maps.2.2 i 1) j (by omega)
          rw [h.1, h.2.1, h.2.2]
          exact ⟨upd_ne _ _ _ _ (by omega), upd_ne _ _ _ _ (by omega), upd_ne _ _ _ _ (by omega)⟩
        · rw [if_neg h1]
          by_cases h2 : pci_read32 cfg b sl f (0x10 + i * 4) &&& 0x06 = 0x04
          · rw [if_pos h2]
            have h := ih (i + 2) (upd maps.1 i (pci_read32 cfg b sl f (0x10 + i * 4)), upd maps.2.1 i (pci_get_bar_size b sl f i), upd maps.2.2 i 3) j (by omega)
            rw [h.1, h.2.1, h.2.2]
            exact ⟨upd_ne _ _ _ _ (by omega), upd_ne _ _ _ _ (by omega), upd_ne _ _ _ _ (by omega)⟩
          · rw [if_neg h2]
            have h := ih (i + 1) (upd maps.1 i (pci_read32 cfg b sl f (0x10 + i * 4)), upd maps.2.1 i (pci_get_bar_size b sl f i), upd maps.2.2 i 2) j (by omega)
            rw [h.1, h.2.1, h.2.2]
            exact ⟨upd_ne _ _ _ _ (by omega), upd_ne _ _ _ _ (by omega), upd_ne _ _ _ _ (by omega)⟩
    · rw [if_neg hi]
      exact ⟨rfl, rfl, rfl⟩

theorem read_bars_absorb (cfg : PCIConfig) (b sl f : Nat) :
    ∀ fuel i maps,
      read_bars cfg b sl f fuel i (read_bars cfg b sl f fuel i maps) =
        read_bars cfg b sl f fuel i maps := by
  intro fuel
  induction fuel with
  | zero => intro i maps; rfl
  | succ k ih =>
    intro i maps
    by_cases hi : i < 6
    · by_cases h0 : pci_read32 cfg b sl f (0x10 + i * 4) = 0
      ·
        set maps' := (upd maps.1 i (pci_read32 cfg b sl f (0x10 + i * 4)), upd maps.2.1 i (pci_get_bar_size b sl f i), upd maps.2.2 i 0) with hmaps'
        have hR : read_bars cfg b sl f (k + 1) i maps = read_bars cfg b sl f k (i + 1) maps' := by
          simp only [read_bars]
          rw [if_pos hi, if_pos h0]
        set R := read_bars cfg b sl f (k + 1) i maps with hRdef
        have f1 : R.1 i = pci_read32 cfg b sl f (0x10 + i * 4) := by
          rw [hR, (read_bars_frame cfg b sl f k (i + 1) maps' i (by omega)).1, hmaps']
          exact upd_at _ _ _
        have f2 : R.2.1 i = pci_get_bar_size b sl f i := by
          rw [hR, (read_bars_frame cfg b sl f k (i + 1) maps' i (by omega)).2.1, hmaps']
          exact upd_at _ _ _
        have f3 : R.2.2 i = 0 := by
          rw [hR, (read_bars_frame cfg b sl f k (i + 1) maps' i (by omega)).2.2, hmaps']
          exact upd_at _ _ _
        have g1 : upd R.1 i (pci_read32 cfg b sl f (0x10 + i * 4)) = R.1 := by
          rw [← f1]
          exact upd_self _ _
        have g2 : upd R.2.1 i (pci_get_bar_size b sl f i) = R.2.1 := by
          rw [← f2]
          exact upd_self _ _
        have g3 : upd R.2.2 i 0 = R.2.2 := by
          rw [← f3]
          exact upd_self _ _
        show read_bars cfg b sl f (k + 1) i R = R
        simp only [read_bars]
        rw [if_pos hi, if_pos h0, g1, g2, g3]
        have he : (R.1, R.2.1, R.2.2) = R := rfl
        rw [he, hR]
        exact ih (i + 1) maps'
      · by_cases h1 : pci_read32 cfg b sl f (0x10 + i * 4) &&& 0x01 ≠ 0
        ·
          set maps' := (upd maps.1 i (pci_read32 cfg b sl f (0x10 + i * 4)), upd maps.2.1 i (pci_get_bar_size b sl f i), upd maps.2.2 i 1) with hmaps'
          have hR : read_bars cfg b sl f (k + 1) i maps = read_bars cfg b sl f k (i + 1) maps' := by
            simp only [read_bars]
            rw [if_pos hi, if_neg h0, if_pos h1]
          set R := read_bars cfg b sl f (k + 1) i maps with hRdef
          have f1 : R.1 i = pci_read32 cfg b sl f (0x10 + i * 4) := by
            rw [hR, (read_bars_frame cfg b sl f k (i + 1) maps' i (by omega)).1, hmaps']
            exact upd_at _ _ _
          have f2 : R.2.1 i = pci_get_bar_size b sl f i := by
            rw [hR, (read_bars_frame cfg b sl f k (i + 1) maps' i (by omega)).2.1, hmaps']
            exact upd_at _ _ _
          have f3 : R.2.2 i = 1 := by
            rw [hR, (read_bars_frame cfg b sl f k (i + 1) maps' i (by omega)).2.2, hmaps']
            exact upd_at _ _ _
          have g1 : upd R.1 i (pci_read32 cfg b sl f (0x10 + i * 4)) = R.1 := by
            rw [← f1]
            exact upd_self _ _
          have g2 : upd R.2.1 i (pci_get_bar_size b sl f i) = R.2.1 := by
            rw [← f2]
            exact upd_self _ _
          have g3 : upd R.2.2 i 1 = R.2.2 := by
            rw [← f3]
            exact upd_self _ _
          show read_bars cfg b sl f (k + 1) i R = R
          simp only [read_bars]
          rw [if_pos hi, if_neg h0, if_pos h1, g1, g2, g3]
          have he : (R.1, R.2.1, R.2.2) = R := rfl
          rw [he, hR]
          exact ih (i + 1) maps'
        · by_cases h2 : pci_read32 cfg b sl f (0x10 + i * 4) &&& 0x06 = 0x04
          ·
            set maps' := (upd maps.1 i (pci_read32 cfg b sl f (0x10 + i * 4)), upd maps.2.1 i (pci_get_bar_size b sl f i), upd maps.2.2 i 3) with hmaps'
            have hR : read_bars cfg b sl f (k + 1) i maps = read_bars cfg b sl f k (i + 2) maps' := by
              simp only [read_bars]
              rw [if_pos hi, if_neg h0, if_neg h1, if_pos h2]
            set R := read_bars cfg b sl f (k + 1) i maps with hRdef
            have f1 : R.1 i = pci_read32 cfg b sl f (0x10 + i * 4) := by
              rw [hR, (read_bars_frame cfg b sl f k (i + 2) maps' i (by omega)).1, hmaps']
              exact upd_at _ _ _
            have f2 : R.2.1 i = pci_get_bar_size b sl f i := by
              rw [hR, (read_bars_frame cfg b sl f k (i + 2) maps' i (by omega)).2.1, hmaps']
              exact upd_at _ _ _
            have f3 : R.2.2 i = 3 := by
              rw [hR, (read_bars_frame cfg b sl f k (i + 2) maps' i (by omega)).2.2, hmaps']
              exact upd_at _ _ _
            have g1 : upd R.1 i (pci_read32 cfg b sl f (0x10 + i * 4)) = R.1 := by
              rw [← f1]
              exact upd_self _ _
            have g2 : upd R.2.1 i (pci_get_bar_size b sl f i) = R.2.1 := by
              rw [← f2]
              exact upd_self _ _
            have g3 : upd R.2.2 i 3 = R.2.2 := by
              rw [← f3]
              exact upd_self _ _
            show read_bars cfg b sl f (k + 1) i R = R
            simp only [read_bars]
            rw [if_pos hi, if_neg h0, if_neg h1, if_pos h2, g1, g2, g3]
            have he : (R.1, R.2.1, R.2.2) = R := rfl
            rw [he, hR]
            exact ih (i + 2) maps'
          ·
            set maps' := (upd maps.1 i (pci_read32 cfg b sl f (0x10 + i * 4)), upd maps.2.1 i (pci_get_bar_size b sl f i), upd maps.2.2 i 2) with hmaps'
            have hR : read_bars cfg b sl f (k + 1) i maps = read_bars cfg b sl f k (i + 1) maps' := by
              simp only [read_bars]
              rw [if_pos hi, if_neg h0, if_neg h1, if_neg h2]
            set R := read_bars cfg b sl f (k + 1) i maps with hRdef
            have f1 : R.1 i = pci_read32 cfg b sl f (0x10 + i * 4) := by
              rw [hR, (read_bars_frame cfg b sl f k (i + 1) maps' i (by omega)).1, hmaps']
              exact upd_at _ _ _
            have f2 : R.2.1 i = pci_get_bar_size b sl f i := by
              rw [hR, (read_bars_frame cfg b sl f k (i + 1) maps' i (by omega)).2.1, hmaps']
              exact upd_at _ _ _
            have f3 : R.2.2 i = 2 := by
              rw [hR, (read_bars_frame cfg b sl f k (i + 1) maps' i (by omega)).2.2, hmaps']
              exact upd_at _ _ _
            have g1 : upd R.1 i (pci_read32 cfg b sl f (0x10 + i * 4)) = R.1 := by
              rw [← f1]
              exact upd_self _ _
            have g2 : upd R.2.1 i (pci_get_bar_size b sl f i) = R.2.1 := by
              rw [← f2]
              exact upd_self _ _
            have g3 : upd R.2.2 i 2 = R.2.2 := by
              rw [← f3]
              exact upd_self _ _
            show read_bars cfg b sl f (k + 1) i R = R
            simp only [read_bars]
            rw [if_pos hi, if_neg h0, if_neg h1, if_neg h2, g1, g2, g3]
            have he : (R.1, R.2.1, R.2.2) = R := rfl
            rw [he, hR]
            exact ih (i + 1) maps'
    · have hstop : ∀ m : (Nat → Nat) × (Nat → Nat) × (Nat → Nat), read_bars cfg b sl f (k + 1) i m = m := by
        intro m
        simp only [read_bars]
        rw [if_neg hi]
      rw [hstop, hstop]



theorem fill_device_eq (cfg : PCIConfig) (b sl f : Nat) (prev : PCIRec) :
    fill_device cfg b sl f prev =
      { bus := b, slot := sl, func := f,
        vendor_id := pci_read16 cfg b sl f 0x00, device_id := pci_read16 cfg b sl f 0x02,
        class_code := pci_read8 cfg b sl f 0x0B, subclass := pci_read8 cfg b sl f 0x0A,
        prog_if := pci_read8 cfg b sl f 0x09, revision := pci_read8 cfg b sl f 0x08,
        header_type := pci_read8 cfg b sl f 0x0E,
        interrupt_line := pci_read8 cfg b sl f 0x3C, interrupt_pin := pci_read8 cfg b sl f 0x3D,
        bar := if pci_read8 cfg b sl f 0x0E &&& 0x7F = 0 then (read_bars cfg b sl f 6 0 (prev.bar, prev.bar_size, prev.bar_type)).1 else prev.bar,
        bar_size := if pci_read8 cfg b sl f 0x0E &&& 0x7F = 0 then (read_bars cfg b sl f 6 0 (prev.bar, prev.bar_size, prev.bar_type)).2.1 else prev.bar_size,
        bar_type := if pci_read8 cfg b sl f 0x0E &&& 0x7F = 0 then (read_bars cfg b sl f 6 0 (prev.bar, prev.bar_size, prev.bar_type)).2.2 else prev.bar_type } := by
  simp only [fill_device]
  split_ifs with hh <;> rfl

theorem fill_device_absorb (cfg : PCIConfig) (b sl f : Nat) (prev : PCIRec) :
    fill_device cfg b sl f (fill_device cfg b sl f prev) = fill_device cfg b sl f prev := by
  rw [fill_device_eq cfg b sl f prev, fill_device_eq cfg b sl f _]
  simp only [PCIRec.mk.injEq, true_and]
  by_cases hh : pci_read8 cfg b sl f 0x0E &&& 0x7F = 0
  · simp only [if_pos hh]
    have he : ((read_bars cfg b sl f 6 0 (prev.bar, prev.bar_size, prev.bar_type)).1,
               (read_bars cfg b sl f 6 0 (prev.bar, prev.bar_size, prev.bar_type)).2.1,
               (read_bars cfg b sl f 6 0 (prev.bar, prev.bar_size, prev.bar_type)).2.2) =
        read_bars cfg b sl f 6 0 (prev.bar, prev.bar_size, prev.bar_type) := rfl
    rw [he, read_bars_absorb]
    simp
  · simp only [if_neg hh]
    simp



theorem check_count_le (cfg : PCIConfig) (b sl f : Nat) (s : PCIState) (h : s.count ≤ 32) :
    (pci_check_device cfg b sl f s).count ≤ 32 := by
  simp only [pci_check_device]
  split_ifs with h1 h2
  · exact h
  · exact h
  · simp only
    omega

theorem check_count_mono (cfg : PCIConfig) (b sl f : Nat) (s : PCIState) :
    s.count ≤ (pci_check_device cfg b sl f s).count := by
  simp only [pci_check_device]
  split_ifs with h1 h2
  · exact Nat.le_refl _
  · exact Nat.le_refl _
  · simp only
    omega

theorem check_frame (cfg : PCIConfig) (b sl f : Nat) (s : PCIState) (j : Nat)
    (hj : j < s.count ∨ (pci_check_device cfg b sl f s).count ≤ j) :
    (pci_check_device cfg b sl f s).devices j = s.devices j := by
  simp only [pci_check_device] at hj ⊢
  split_ifs at hj ⊢ with h1 h2
  · rfl
  · rfl
  · simp only at hj
    exact upd_ne _ _ _ _ (by omega)

theorem check_replay (cfg : PCIConfig) (b sl f : Nat) (s : PCIState) (d : Nat → PCIRec)
    (hd : ∀ j, s.count ≤ j → j < (pci_check_device cfg b sl f s).count →
      d j = (pci_check_device cfg b sl f s).devices j) :
    pci_check_device cfg b sl f ⟨d, s.count⟩ = ⟨d, (pci_check_device cfg b sl f s).count⟩ := by
  simp only [pci_check_device] at hd ⊢
  split_ifs at hd ⊢ with h1 h2
  · rfl
  · rfl
  · simp only at hd
    have hds : d s.count = fill_device cfg b sl f (s.devices s.count) := by
      have h3 := hd s.count (Nat.le_refl _) (by omega)
      rw [h3, upd_at]
    have h4 : fill_device cfg b sl f (d s.count) = d s.count := by
      rw [hds, fill_device_absorb]
    rw [h4, upd_self]



theorem scan_count_mono (cfg : PCIConfig) (slot : Nat) :
    ∀ fuel func s, s.count ≤ (pci_scan_funcs cfg slot fuel func s).count := by
  intro fuel
  induction fuel with
  | zero => intro func s; exact Nat.le_refl _
  | succ k ih =>
    intro func s
    simp only [pci_scan_funcs]
    by_cases hf : func < 8
    · rw [if_pos hf]
      by_cases hv : pci_read16 cfg 0 slot func 0x00 ≠ 0xFFFF
      · rw [if_pos hv]
        exact Nat.le_trans (check_count_mono cfg 0 slot func s) (ih (func + 1) _)
      · rw [if_neg hv]
        exact ih (func + 1) s
    · rw [if_neg hf]

theorem scan_count_le (cfg : PCIConfig) (slot : Nat) :
    ∀ fuel func s, s.count ≤ 32 → (pci_scan_funcs cfg slot fuel func s).count ≤ 32 := by
  intro fuel
  induction fuel with
  | zero => intro func s h; exact h
  | succ k ih =>
    intro func s h
    simp only [pci_scan_funcs]
    by_cases hf : func < 8
    · rw [if_pos hf]
      by_cases hv : pci_read16 cfg 0 slot func 0x00 ≠ 0xFFFF
      · rw [if_pos hv]
        exact ih (func + 1) _ (check_count_le cfg 0 slot func s h)
      · rw [if_neg hv]
        exact ih (func + 1) s h
    · rw [if_neg hf]
      exact h

theorem scan_frame (cfg : PCIConfig) (slot : Nat) :
    ∀ fuel func s j, (j < s.count ∨ (pci_scan_funcs cfg slot fuel func s).count ≤ j) →
      (pci_scan_funcs cfg slot fuel func s).devices j = s.devices j := by
  intro fuel
  induction fuel with
  | zero => intro func s j hj; rfl
  | succ k ih =>
    intro func s j hj
    simp only [pci_scan_funcs] at hj ⊢
    by_cases hf : func < 8
    · by_cases hv : pci_read16 cfg 0 slot func 0x00 ≠ 0xFFFF
      · simp only [if_pos hf, if_pos hv] at hj ⊢
        have hm1 := check_count_mono cfg 0 slot func s
        have hm2 := scan_count_mono cfg slot k (func + 1) (pci_check_device cfg 0 slot func s)
        rcases hj with hj | hj
        · rw [ih (func + 1) _ j (Or.inl (by omega))]
          exact check_frame cfg 0 slot func s j (Or.inl hj)
        · rw [ih (func + 1) _ j (Or.inr hj)]
          exact check_frame cfg 0 slot func s j (Or.inr (by omega))
      · simp only [if_pos hf, if_neg hv] at hj ⊢
        exact ih (func + 1) s j hj
    · simp only [if_neg hf] at hj ⊢

theorem scan_replay (cfg : PCIConfig) (slot : Nat) :
    ∀ fuel func s (d : Nat → PCIRec),
      (∀ j, s.count ≤ j → j < (pci_scan_funcs cfg slot fuel func s).count →
        d j = (pci_scan_funcs cfg slot fuel func s).devices j) →
      pci_scan_funcs cfg slot fuel func ⟨d, s.count⟩ =
        ⟨d, (pci_scan_funcs cfg slot fuel func s).count⟩ := by
  intro fuel
  induction fuel with
  | zero => intro func s d hd; rfl
  | succ k ih =>
    intro func s d hd
    simp only [pci_scan_funcs] at hd ⊢
    by_cases hf : func < 8
    · by_cases hv : pci_read16 cfg 0 slot func 0x00 ≠ 0xFFFF
      · simp only [if_pos hf, if_pos hv] at hd ⊢
        have hm1 := check_count_mono cfg 0 slot func s
        have hm2 := scan_count_mono cfg slot k (func + 1) (pci_check_device cfg 0 slot func s)
        have hrep := check_replay cfg 0 slot func s d (fun j hj1 hj2 => by
          rw [hd j hj1 (by omega)]
          exact scan_frame cfg slot k (func + 1) _ j (Or.inl hj2))
        rw [hrep]
        apply ih (func + 1) (pci_check_device cfg 0 slot func s) d
        intro j hj1 hj2
        exact hd j (by omega) hj2
      · simp only [if_pos hf, if_neg hv] at hd ⊢
        exact ih (func + 1) s d hd
    · simp only [if_neg hf] at hd ⊢



theorem process_count_mono (cfg : PCIConfig) (slot : Nat) (s : PCIState) :
    s.count ≤ (pci_process_slot cfg slot s).count := by
  simp only [pci_process_slot]
  by_cases hv : pci_read16 cfg 0 slot 0 0x00 = 0xFFFF ∨ pci_read16 cfg 0 slot 0 0x00 = 0
  · simp only [if_pos hv]
    exact Nat.le_refl _
  · simp only [if_neg hv]
    by_cases hh : pci_read8 cfg 0 slot 0 0x0E &&& 0x80 ≠ 0
    · simp only [if_pos hh]
      exact Nat.le_trans (check_count_mono cfg 0 slot 0 s)
        (scan_count_mono cfg slot 7 1 (pci_check_device cfg 0 slot 0 s))
    · simp only [if_neg hh]
      exact check_count_mono cfg 0 slot 0 s

theorem process_count_le (cfg : PCIConfig) (slot : Nat) (s : PCIState) (h : s.count ≤ 32) :
    (pci_process_slot cfg slot s).count ≤ 32 := by
  simp only [pci_process_slot]
  by_cases hv : pci_read16 cfg 0 slot 0 0x00 = 0xFFFF ∨ pci_read16 cfg 0 slot 0 0x00 = 0
  · simp only [if_pos hv]
    exact h
  · simp only [if_neg hv]
    by_cases hh : pci_read8 cfg 0 slot 0 0x0E &&& 0x80 ≠ 0
    · simp only [if_pos hh]
      exact scan_count_le cfg slot 7 1 _ (check_count_le cfg 0 slot 0 s h)
    · simp only [if_neg hh]
      exact check_count_le cfg 0 slot 0 s h

theorem process_frame (cfg : PCIConfig) (slot : Nat) (s : PCIState) (j : Nat)
    (hj : j < s.count ∨ (pci_process_slot cfg slot s).count ≤ j) :
    (pci_process_slot cfg slot s).devices j = s.devices j := by
  simp only [pci_process_slot] at hj ⊢
  by_cases hv : pci_read16 cfg 0 slot 0 0x00 = 0xFFFF ∨ pci_read16 cfg 0 slot 0 0x00 = 0
  · simp only [if_pos hv] at hj ⊢
  · simp only [if_neg hv] at hj ⊢
    by_cases hh : pci_read8 cfg 0 slot 0 0x0E &&& 0x80 ≠ 0
    · simp only [if_pos hh] at hj ⊢
      have hm1 := check_count_mono cfg 0 slot 0 s
      have hm2 := scan_count_mono cfg slot 7 1 (pci_check_device cfg 0 slot 0 s)
      rcases hj with hj | hj
      · rw [scan_frame cfg slot 7 1 _ j (Or.inl (by omega))]
        exact check_frame cfg 0 slot 0 s j (Or.inl hj)
      · rw [scan_frame cfg slot 7 1 _ j (Or.inr hj)]
        exact check_frame cfg 0 slot 0 s j (Or.inr (by omega))
    · simp only [if_neg hh] at hj ⊢
      exact check_frame cfg 0 slot 0 s j hj

theorem process_replay (cfg : PCIConfig) (slot : Nat) (s : PCIState) (d : Nat → PCIRec)
    (hd : ∀ j, s.count ≤ j → j < (pci_process_slot cfg slot s).count →
      d j = (pci_process_slot cfg slot s).devices j) :
    pci_process_slot cfg slot ⟨d, s.count⟩ = ⟨d, (pci_process_slot cfg slot s).count⟩ := by
  simp only [pci_process_slot] at hd ⊢
  by_cases hv : pci_read16 cfg 0 slot 0 0x00 = 0xFFFF ∨ pci_read16 cfg 0 slot 0 0x00 = 0
  · simp only [if_pos hv] at hd ⊢
  · simp only [if_neg hv] at hd ⊢
    by_cases hh : pci_read8 cfg 0 slot 0 0x0E &&& 0x80 ≠ 0
    · simp only [if_pos hh] at hd ⊢
      have hm1 := check_count_mono cfg 0 slot 0 s
      have hm2 := scan_count_mono cfg slot 7 1 (pci_check_device cfg 0 slot 0 s)
      have hrep := check_replay cfg 0 slot 0 s d (fun j hj1 hj2 => by
        rw [hd j hj1 (by omega)]
        exact scan_frame cfg slot 7 1 _ j (Or.inl hj2))
      rw [hrep]
      apply scan_replay cfg slot 7 1 (pci_check_device cfg 0 slot 0 s) d
      intro j hj1 hj2
      exact hd j (by omega) hj2
    · simp only [if_neg hh] at hd ⊢
      exact check_replay cfg 0 slot 0 s d hd

theorem enum_count_le (cfg : PCIConfig) :
    ∀ fuel slot s, s.count ≤ 32 → (pci_enum_slots cfg fuel slot s).count ≤ 32 := by
  intro fuel
  induction fuel with
  | zero => intro slot s h; exact h
  | succ k ih =>
    intro slot s h
    simp only [pci_enum_slots]
    by_cases hs : slot < 32
    · simp only [if_pos hs]
      by_cases hc : 32 ≤ (pci_process_slot cfg slot s).count
      · simp only [if_pos hc]
        exact process_count_le cfg slot s h
      · simp only [if_neg hc]
        exact ih (slot + 1) _ (process_count_le cfg slot s h)
    · simp only [if_neg hs]
      exact h

theorem enum_count_mono (cfg : PCIConfig) :
    ∀ fuel slot s, s.count ≤ (pci_enum_slots cfg fuel slot s).count := by
  intro fuel
  induction fuel with
  | zero => intro slot s; exact Nat.le_refl _
  | succ k ih =>
    intro slot s
    simp only [pci_enum_slots]
    by_cases hs : slot < 32
    · simp only [if_pos hs]
      by_cases hc : 32 ≤ (pci_process_slot cfg slot s).count
      · simp only [if_pos hc]
        exact process_count_mono cfg slot s
      · simp only [if_neg hc]
        exact Nat.le_trans (process_count_mono cfg slot s) (ih (slot + 1) _)
    · simp only [if_neg hs]
      exact Nat.le_refl _

theorem enum_frame (cfg : PCIConfig) :
    ∀ fuel slot s j, (j < s.count ∨ (pci_enum_slots cfg fuel slot s).count ≤ j) →
      (pci_enum_slots cfg fuel slot s).devices j = s.devices j := by
  intro fuel
  induction fuel with
  | zero => intro slot s j hj; rfl
  | succ k ih =>
    intro slot s j hj
    simp only [pci_enum_slots] at hj ⊢
    by_cases hs : slot < 32
    · simp only [if_pos hs] at hj ⊢
      by_cases hc : 32 ≤ (pci_process_slot cfg slot s).count
      · simp only [if_pos hc] at hj ⊢
        have hm1 := process_count_mono cfg slot s
        exact process_frame cfg slot s j hj
      · simp only [if_neg hc] at hj ⊢
        have hm1 := process_count_mono cfg slot s
        have hm2 := enum_count_mono cfg k (slot + 1) (pci_process_slot cfg slot s)
        rcases hj with hj | hj
        · rw [ih (slot + 1) _ j (Or.inl (by omega))]
          exact process_frame cfg slot s j (Or.inl hj)
        · rw [ih (slot + 1) _ j (Or.inr hj)]
          exact process_frame cfg slot s j (Or.inr (by omega))
    · simp only [if_neg hs] at hj ⊢

theorem enum_replay (cfg : PCIConfig) :
    ∀ fuel slot s (d : Nat → PCIRec),
      (∀ j, s.count ≤ j → j < (pci_enum_slots cfg fuel slot s).count →
        d j = (pci_enum_slots cfg fuel slot s).devices j) →
      pci_enum_slots cfg fuel slot ⟨d, s.count⟩ = ⟨d, (pci_enum_slots cfg fuel slot s).count⟩ := by
  intro fuel
  induction fuel with
  | zero => intro slot s d hd; rfl
  | succ k ih =>
    intro slot s d hd
    simp only [pci_enum_slots] at hd ⊢
    by_cases hs : slot < 32
    · simp only [if_pos hs] at hd ⊢
      have hm1 := process_count_mono cfg slot s
      by_cases hc : 32 ≤ (pci_process_slot cfg slot s).count
      · simp only [if_pos hc] at hd ⊢
        have hrep := process_replay cfg slot s d (fun j hj1 hj2 => hd j hj1 hj2)
        rw [hrep]
        simp only [if_pos hc]
      · simp only [if_neg hc] at hd ⊢
        have hm2 := enum_count_mono cfg k (slot + 1) (pci_process_slot cfg slot s)
        have hrep := process_replay cfg slot s d (fun j hj1 hj2 => by
          rw [hd j hj1 (by omega)]
          exact enum_frame cfg k (slot + 1) _ j (Or.inl hj2))
        rw [hrep]
        simp only [if_neg hc]
        apply ih (slot + 1) (pci_process_slot cfg slot s) d
        intro j hj1 hj2
        exact hd j (by omega) hj2
    · simp only [if_neg hs] at hd ⊢



/-- C6: `pci_enumerate` never leaves more than PCI_MAX_DEVICES = 32
    devices registered, and it is idempotent: re-running it over the same
    configuration-space contents resets the count and reproduces exactly
    the same device count and table (the whole state is equal). -/
theorem C6_pci_enumerate_cap_idem (cfg : PCIConfig) (s : PCIState) :
    (pci_enumerate cfg s).count ≤ 32 ∧
    pci_enumerate cfg (pci_enumerate cfg s) = pci_enumerate cfg s := by
  constructor
  · simp only [pci_enumerate]
    exact enum_count_le cfg 32 0 ⟨s.devices, 0⟩ (by simp)
  · simp only [pci_enumerate]
    exact enum_replay cfg 32 0 ⟨s.devices, 0⟩
      (pci_enum_slots cfg 32 0 ⟨s.devices, 0⟩).devices (fun j hj1 hj2 => rfl)

end MiniOS
